import Mathlib

/-!
# Verification of the dish-search pipeline (`mvp` repository)

A shallow embedding, in Lean 4, of the text-matching, price-extraction,
menu-location, orchestration and caching code of the repository, together
with theorems settling the specification claims about it.

Strings are modelled as lists of Unicode code points (`PyStr := List Nat`).
The pipeline processes Russian/English restaurant text, so the character
predicates (`\w`, `\s`, `str.lower`) are modelled exactly on the ASCII and
Cyrillic repertoire this code handles (Python's classes extend to further
scripts that never occur here); NFKC normalization is the identity on that
repertoire and is therefore not represented by a separate function.
-/

/-- Python strings are modelled as lists of Unicode code points. -/
abbrev PyStr := List Nat

/-- Code points of a Lean string literal, used to write concrete Python strings. -/
def pyStr (s : String) : PyStr := s.data.map Char.toNat

/-- Python's `\s` / `str.strip` whitespace class, over the repertoire used here:
ASCII whitespace, the C1/Unicode space characters. -/
def isPySpace (c : Nat) : Bool :=
  (9 ≤ c && c ≤ 13) || c == 32 || (28 ≤ c && c ≤ 31) || c == 133 || c == 160 ||
  c == 5760 || (8192 ≤ c && c ≤ 8202) || c == 8232 || c == 8233 || c == 8239 ||
  c == 8287 || c == 12288

/-- Python's `\w` word-character class (underscore, ASCII digits and letters,
Cyrillic letters including Ё/ё), modelled on the repertoire this code handles. -/
def isPyWord (c : Nat) : Bool :=
  c == 95 || (48 ≤ c && c ≤ 57) || (65 ≤ c && c ≤ 90) || (97 ≤ c && c ≤ 122) ||
  (1040 ≤ c && c ≤ 1103) || c == 1025 || c == 1105

/-- Python `str.lower` on the ASCII and Cyrillic repertoire: `A`–`Z` and
`А`–`Я` shift into their lowercase ranges, `Ё` maps to `ё`; everything else
(digits, punctuation, already-lowercase letters) is fixed. -/
def pyLower (c : Nat) : Nat :=
  if 65 ≤ c ∧ c ≤ 90 then c + 32
  else if 1040 ≤ c ∧ c ≤ 1071 then c + 32
  else if c = 1025 then 1105
  else c

/-- `re.sub(r"\s+", " ", text)`: every maximal whitespace run becomes a single
space (code point 32). -/
def collapseWS : PyStr → PyStr
  | [] => []
  | [c] => if isPySpace c then [32] else [c]
  | c :: d :: rest =>
    if isPySpace c then
      if isPySpace d then collapseWS (d :: rest)
      else 32 :: collapseWS (d :: rest)
    else c :: collapseWS (d :: rest)

/-- Python `str.strip()`: drop whitespace from both ends. -/
def stripWS (l : PyStr) : PyStr :=
  ((l.dropWhile isPySpace).reverse.dropWhile isPySpace).reverse

/-- `normalize_text` (src/utils/text_utils.py): NFKC (identity on the modelled
repertoire), lowercase, collapse whitespace runs to single spaces, strip. -/
def normalize_text (text : PyStr) : PyStr :=
  if text = [] then []
  else stripWS (collapseWS (text.map pyLower))

/-- `normalize_for_search` (src/utils/text_utils.py): `normalize_text`, then
remove every character that is neither a word character nor whitespace
(`re.sub(r"[^\w\s]", "", text)`). -/
def normalize_for_search (text : PyStr) : PyStr :=
  (normalize_text text).filter (fun c => isPyWord c || isPySpace c)

/-- Python `str.find`: index of the first occurrence of `needle` in `hay`
(`none` for Python's `-1`).  `hay.find("") = 0`, as in Python. -/
def strFind : PyStr → PyStr → Option Nat
  | hay, needle =>
    if needle.isPrefixOf hay then some 0
    else
      match hay with
      | [] => none
      | _ :: t => (strFind t needle).map (· + 1)

/-- Python's `needle in hay` substring test. -/
def strContains (hay needle : PyStr) : Bool :=
  (strFind hay needle).isSome

/-- Python slice `l[a:b]` (for already-clamped nonnegative indices). -/
def pySlice (l : PyStr) (a b : Nat) : PyStr :=
  (l.take b).drop a

/-- Python `str.split()` with no argument: split on whitespace runs,
discarding empty pieces. -/
def splitWS : PyStr → List PyStr
  | [] => []
  | c :: rest =>
    if isPySpace c then splitWS rest
    else
      match splitWS rest with
      | [] => [[c]]
      | w :: ws =>
        match rest with
        | [] => [[c]]
        | d :: _ => if isPySpace d then [c] :: w :: ws else (c :: w) :: ws

/-- Starts of the non-overlapping occurrences of a literal `needle` in `hay`,
left to right, as produced by `re.finditer(re.escape(needle), hay)`.
Fuel-based recursion; the scan position strictly increases each step. -/
def findIterLitGo (needle hay : PyStr) : Nat → Nat → List Nat
  | 0, _ => []
  | fuel + 1, i =>
    if i > hay.length then []
    else if needle.isPrefixOf (hay.drop i) then
      i :: findIterLitGo needle hay fuel (i + max needle.length 1)
    else findIterLitGo needle hay fuel (i + 1)

/-- All (non-overlapping) occurrence starts of `needle` in `hay`. -/
def findIterLit (needle hay : PyStr) : List Nat :=
  findIterLitGo needle hay (hay.length + 2) 0

/-- The static dish-variants dictionary of `_get_dish_variants`
(src/utils/text_utils.py), in source (insertion) order. -/
def dish_variants_table : List (PyStr × List PyStr) :=
  [ (pyStr "зеленый салат",
      [pyStr "green salad", pyStr "insalata verde", pyStr "салат зеленый",
       pyStr "микс салат", pyStr "mix salad", pyStr "салат микс",
       pyStr "листовой салат"]),
    (pyStr "салат цезарь",
      [pyStr "caesar salad", pyStr "insalata caesar", pyStr "цезарь"]),
    (pyStr "греческий салат",
      [pyStr "greek salad", pyStr "insalata greca", pyStr "греческий"]),
    (pyStr "овощной салат",
      [pyStr "vegetable salad", pyStr "insalata di verdure"]),
    (pyStr "куриный суп",
      [pyStr "chicken soup", pyStr "zuppa di pollo", pyStr "суп куриный",
       pyStr "бульон куриный"]),
    (pyStr "томатный суп", [pyStr "tomato soup", pyStr "zuppa di pomodoro"]),
    (pyStr "грибной суп", [pyStr "mushroom soup", pyStr "zuppa di funghi"]),
    (pyStr "паста карбонара",
      [pyStr "carbonara", pyStr "pasta carbonara", pyStr "карбонара"]),
    (pyStr "пицца маргарита",
      [pyStr "margherita", pyStr "pizza margherita", pyStr "маргарита"]),
    (pyStr "стейк", [pyStr "steak", pyStr "bistecca"]),
    (pyStr "салат", [pyStr "salad", pyStr "insalata"]),
    (pyStr "суп", [pyStr "soup", pyStr "zuppa", pyStr "brodo"]),
    (pyStr "пицца", [pyStr "pizza"]),
    (pyStr "паста", [pyStr "pasta"]) ]

/-- Order-preserving deduplication keyed by the lowercased string, as in the
final loop of `_get_dish_variants`. -/
def dedupByLower (seen : List PyStr) : List PyStr → List PyStr
  | [] => []
  | v :: rest =>
    if seen.contains (v.map pyLower) then dedupByLower seen rest
    else v :: dedupByLower (seen ++ [v.map pyLower]) rest

/-- `_get_dish_variants` (src/utils/text_utils.py): alternative names and
translations for a dish, from the static bilingual table. -/
def get_dish_variants (dish_name : PyStr) : List PyStr :=
  let dish_lower := stripWS (dish_name.map pyLower)
  let exact :=
    match dish_variants_table.find? (fun kv => kv.1 == dish_lower) with
    | some kv => kv.2
    | none => []
  let scanned :=
    dish_variants_table.foldl
      (fun acc kv =>
        let acc :=
          if strContains dish_lower kv.1 || strContains kv.1 dish_lower then
            acc ++ kv.2
          else acc
        kv.2.foldl
          (fun acc v =>
            if strContains dish_lower v || strContains v dish_lower then
              (acc ++ [kv.1]) ++ kv.2.filter (fun x => x != v)
            else acc)
          acc)
      exact
  dedupByLower [] scanned

/-- First element of a list of words with maximal length (Python
`max(words, key=len)`). -/
def maxByLen (w0 : PyStr) (ws : List PyStr) : PyStr :=
  ws.foldl (fun a w => if w.length > a.length then w else a) w0

/-- Strategy 2 of `find_dish_in_text`: scan every occurrence of the first
significant word and accept when all significant words occur in the region
from 20 characters before to 100 characters after it. -/
def findDishStrategy2 (dish_words : List PyStr) (tn : PyStr) : Option Nat :=
  match dish_words with
  | [] => none
  | first_word :: _ =>
    (findIterLit first_word tn).find? (fun pos =>
      let region := pySlice tn (pos - 20) (min tn.length (pos + 100))
      dish_words.all (fun w => strContains region w))

/-- Strategy 4 of `find_dish_in_text`: retry the normalized variants as
substrings, first hit wins. -/
def findDishStrategy4 (variants : List PyStr) (tn : PyStr) : Option Nat :=
  match variants with
  | [] => none
  | v :: rest =>
    match strFind tn (normalize_for_search v) with
    | some pos => some pos
    | none => findDishStrategy4 rest tn

/-- `find_dish_in_text` (src/utils/text_utils.py): locate a dish name in a
text after search normalization, trying in order: exact substring; all
significant words near the first one; longest significant word; the static
variants table. -/
def find_dish_in_text (dish_name text : PyStr) : Option Nat :=
  let dish_normalized := normalize_for_search dish_name
  let text_normalized := normalize_for_search text
  if dish_normalized = [] ∨ text_normalized = [] then none
  else
    match strFind text_normalized dish_normalized with
    | some pos => some pos
    | none =>
      let dish_words := (splitWS dish_normalized).filter (fun w => w.length > 2)
      match findDishStrategy2 dish_words text_normalized with
      | some pos => some pos
      | none =>
        let strat3 :=
          match dish_words with
          | [] => none
          | w0 :: rest =>
            let main_word := maxByLen w0 rest
            if main_word.length ≥ 4 then strFind text_normalized main_word
            else none
        match strat3 with
        | some pos => some pos
        | none => findDishStrategy4 (get_dish_variants dish_name) text_normalized

/-! ## Price extraction (`extract_price`, src/utils/text_utils.py)

Each regex pattern of the source is hand-compiled to a matcher
`PyStr → Nat → Option (Nat × Nat)`: at a start index it yields the match end
and the numeric value of the single capture group, reproducing Python's
leftmost scan, greedy repetition with backtracking, and `re.IGNORECASE`. -/

/-- Character at an index (`none` out of range). -/
def charAt (l : PyStr) (i : Nat) : Option Nat := l.get? i

/-- ASCII digit test for `\d` (on the modelled repertoire). -/
def isDigitCp (c : Nat) : Bool := 48 ≤ c && c ≤ 57

/-- Is the character at `i` a digit? -/
def isDigitAt (l : PyStr) (i : Nat) : Bool :=
  match charAt l i with
  | some c => isDigitCp c
  | none => false

/-- Length of the digit run starting at `i`. -/
def digitRunLen (l : PyStr) (i : Nat) : Nat :=
  ((l.drop i).takeWhile isDigitCp).length

/-- Index after greedily consuming `\s*` from `i`. -/
def skipSpaces (l : PyStr) (i : Nat) : Nat :=
  i + ((l.drop i).takeWhile isPySpace).length

/-- Numeric value of the `k` digits starting at `i`. -/
def readDigits (l : PyStr) (i k : Nat) : Nat :=
  (pySlice l i (i + k)).foldl (fun a c => a * 10 + (c - 48)) 0

/-- Case-insensitive literal match starting at `i`; yields the index after it. -/
def litMatchCI (lit : PyStr) (l : PyStr) (i : Nat) : Option Nat :=
  if (lit.map pyLower).isPrefixOf ((l.drop i).map pyLower) then some (i + lit.length)
  else none

/-- Is the character at `i` a `\w` word character (out of range: no)? -/
def isWordAt (l : PyStr) (i : Nat) : Bool :=
  match charAt l i with
  | some c => isPyWord c
  | none => false

/-- Python `\b` word boundary holding at position `i` of `l`. -/
def boundaryAt (l : PyStr) (i : Nat) : Bool :=
  match i with
  | 0 => isWordAt l 0
  | j + 1 => isWordAt l j != isWordAt l (j + 1)

/-- Membership of an optional character in a class. -/
def optIsIn (o : Option Nat) (s : List Nat) : Bool :=
  match o with
  | some c => s.contains c
  | none => false

/-- Greedy backtracking over a repetition count: try `f` at `k`, `k-1`, …
down to `lo`. -/
def tryFrom (f : Nat → Option (Nat × Nat)) (lo : Nat) : Nat → Option (Nat × Nat)
  | 0 => if lo = 0 then f 0 else none
  | k + 1 =>
    if k + 1 < lo then none
    else
      match f (k + 1) with
      | some r => some r
      | none => tryFrom f lo k

/-- Pattern `(\d{2,5})\s*₽` (₽ is code point 8381). -/
def patRuble (ctx : PyStr) (i : Nat) : Option (Nat × Nat) :=
  let run := digitRunLen ctx i
  if run < 2 then none
  else
    tryFrom
      (fun k =>
        let j := skipSpaces ctx (i + k)
        if charAt ctx j == some 8381 then some (j + 1, readDigits ctx i k)
        else none)
      2 (min run 5)

/-- Pattern `(\d{2,5})\s*руб\.?(?:лей)?`. -/
def patRub (ctx : PyStr) (i : Nat) : Option (Nat × Nat) :=
  let run := digitRunLen ctx i
  if run < 2 then none
  else
    tryFrom
      (fun k =>
        let j := skipSpaces ctx (i + k)
        match litMatchCI (pyStr "руб") ctx j with
        | none => none
        | some e =>
          let e1 := if charAt ctx e == some 46 then e + 1 else e
          let e2 :=
            match litMatchCI (pyStr "лей") ctx e1 with
            | some e' => e'
            | none => e1
          some (e2, readDigits ctx i k))
      2 (min run 5)

/-- Pattern `(\d{2,5})\s*р\.?\b`: the optional dot backtracks against the
word boundary. -/
def patRu (ctx : PyStr) (i : Nat) : Option (Nat × Nat) :=
  let run := digitRunLen ctx i
  if run < 2 then none
  else
    tryFrom
      (fun k =>
        let j := skipSpaces ctx (i + k)
        match litMatchCI (pyStr "р") ctx j with
        | none => none
        | some e =>
          if charAt ctx e == some 46 && boundaryAt ctx (e + 1) then
            some (e + 1, readDigits ctx i k)
          else if boundaryAt ctx e then some (e, readDigits ctx i k)
          else none)
      2 (min run 5)

/-- Pattern `RUB\s*(\d{2,5})` (case-insensitive). -/
def patRubPrefix (ctx : PyStr) (i : Nat) : Option (Nat × Nat) :=
  match litMatchCI (pyStr "rub") ctx i with
  | none => none
  | some j0 =>
    let j := skipSpaces ctx j0
    let run := digitRunLen ctx j
    if run < 2 then none
    else
      let k := min run 5
      some (j + k, readDigits ctx j k)

/-- Pattern `(\d{2,5})\s*RUB` (case-insensitive). -/
def patRubSuffix (ctx : PyStr) (i : Nat) : Option (Nat × Nat) :=
  let run := digitRunLen ctx i
  if run < 2 then none
  else
    tryFrom
      (fun k =>
        let j := skipSpaces ctx (i + k)
        (litMatchCI (pyStr "rub") ctx j).map fun e => (e, readDigits ctx i k))
      2 (min run 5)

/-- Pattern `\d+\s*[гgГG]\s*[/—–\-]\s*(\d{2,5})` (weight slash price). -/
def patWeight (ctx : PyStr) (i : Nat) : Option (Nat × Nat) :=
  let r0 := digitRunLen ctx i
  if r0 = 0 then none
  else
    let j := skipSpaces ctx (i + r0)
    if optIsIn (charAt ctx j) [1075, 103, 1043, 71] then
      let j2 := skipSpaces ctx (j + 1)
      if optIsIn (charAt ctx j2) [47, 8212, 8211, 45] then
        let j3 := skipSpaces ctx (j2 + 1)
        let run := digitRunLen ctx j3
        if run < 2 then none
        else
          let k := min run 5
          some (j3 + k, readDigits ctx j3 k)
      else none
    else none

/-- Pattern: a separator character (em dash, en dash, hyphen, slash, colon),
then `\s*(\d{2,5})`, then an optional currency suffix
`(?:\s*₽|\s*р\.?|\s*руб\.?)?`; the third alternative of the suffix is
subsumed by the second, as in Python (left-to-right alternation). -/
def patSep (ctx : PyStr) (i : Nat) : Option (Nat × Nat) :=
  if optIsIn (charAt ctx i) [8212, 8211, 45, 47, 58] then
    let j := skipSpaces ctx (i + 1)
    let run := digitRunLen ctx j
    if run < 2 then none
    else
      let k := min run 5
      let e0 := j + k
      let ja := skipSpaces ctx e0
      let e :=
        if charAt ctx ja == some 8381 then ja + 1
        else
          match litMatchCI (pyStr "р") ctx ja with
          | some e1 => if charAt ctx e1 == some 46 then e1 + 1 else e1
          | none => e0
      some (e, readDigits ctx j k)
  else none

/-- Pattern `(\d{2,5})[.,]00\b`. -/
def patDecimal (ctx : PyStr) (i : Nat) : Option (Nat × Nat) :=
  let run := digitRunLen ctx i
  if run < 2 then none
  else
    tryFrom
      (fun k =>
        let j := i + k
        if optIsIn (charAt ctx j) [46, 44] && charAt ctx (j + 1) == some 48 &&
            charAt ctx (j + 2) == some 48 && boundaryAt ctx (j + 3) then
          some (j + 3, readDigits ctx i k)
        else none)
      2 (min run 5)

/-- Pattern `от\s*(\d{2,5})` (case-insensitive). -/
def patOt (ctx : PyStr) (i : Nat) : Option (Nat × Nat) :=
  match litMatchCI (pyStr "от") ctx i with
  | none => none
  | some j0 =>
    let j := skipSpaces ctx j0
    let run := digitRunLen ctx j
    if run < 2 then none
    else
      let k := min run 5
      some (j + k, readDigits ctx j k)

/-- Pattern `(\d{3,4})\s*[—–\-]\s*\d{3,4}` (price range, first number). -/
def patRange (ctx : PyStr) (i : Nat) : Option (Nat × Nat) :=
  let run := digitRunLen ctx i
  if run < 3 then none
  else
    tryFrom
      (fun k =>
        let j := skipSpaces ctx (i + k)
        if optIsIn (charAt ctx j) [8212, 8211, 45] then
          let j2 := skipSpaces ctx (j + 1)
          let run2 := digitRunLen ctx j2
          if run2 < 3 then none
          else some (j2 + min run2 4, readDigits ctx i k)
        else none)
      3 (min run 4)

/-- Pattern `(?<!\d)(\d{3,4})(?!\s*[гgГG]|\d)` (bare 3–4 digit number that is
not a weight and not part of a longer run). -/
def patBare (ctx : PyStr) (i : Nat) : Option (Nat × Nat) :=
  if i > 0 && isDigitAt ctx (i - 1) then none
  else
    let run := digitRunLen ctx i
    if run < 3 then none
    else
      tryFrom
        (fun k =>
          let j := i + k
          let la1 := optIsIn (charAt ctx (skipSpaces ctx j)) [1075, 103, 1043, 71]
          let la2 := isDigitAt ctx j
          if la1 || la2 then none else some (j, readDigits ctx i k))
        3 (min run 4)

/-- One regex match: start, end, captured numeric value. -/
structure RMatch where
  start : Nat
  stop : Nat
  value : Nat
  deriving Repr, DecidableEq

/-- `re.finditer` for a compiled matcher: scan left to right, non-overlapping
matches.  Fuel-based; the scan position strictly increases each step. -/
def reFinditerGo (m : PyStr → Nat → Option (Nat × Nat)) (ctx : PyStr) :
    Nat → Nat → List RMatch
  | 0, _ => []
  | fuel + 1, i =>
    if i > ctx.length then []
    else
      match m ctx i with
      | some (e, v) => ⟨i, e, v⟩ :: reFinditerGo m ctx fuel (max e (i + 1))
      | none => reFinditerGo m ctx fuel (i + 1)

/-- All matches of one pattern over `ctx`. -/
def reFinditer (m : PyStr → Nat → Option (Nat × Nat)) (ctx : PyStr) : List RMatch :=
  reFinditerGo m ctx (ctx.length + 2) 0

/-- The price patterns of `extract_price`, in source order. -/
def pricePatterns : List (PyStr → Nat → Option (Nat × Nat)) :=
  [patRuble, patRub, patRu, patRubPrefix, patRubSuffix, patWeight, patSep,
   patDecimal, patOt, patRange, patBare]

/-- A price candidate: distance score, numeric value, raw matched string. -/
structure PriceCand where
  dist : Nat
  value : Nat
  raw : PyStr
  deriving Repr, DecidableEq

/-- Distance score of a match start within the context window: positions past
the 30-character lookback count forward, earlier ones are penalized by 1000. -/
def candDistance (s : Nat) : Nat :=
  if s ≥ 30 then s - 30 else 1000 + (30 - s)

/-- Candidates of one pattern: matches whose value passes the 50–50000 sanity
bound, with distance score and stripped raw text. -/
def priceCandidatesOf (m : PyStr → Nat → Option (Nat × Nat)) (context : PyStr) :
    List PriceCand :=
  (reFinditer m context).filterMap fun r =>
    if 50 ≤ r.value ∧ r.value ≤ 50000 then
      some ⟨candDistance r.start, r.value, stripWS (pySlice context r.start r.stop)⟩
    else none

/-- All candidates over all patterns, in pattern order. -/
def priceCandidates (context : PyStr) : List PriceCand :=
  pricePatterns.foldl (fun acc m => acc ++ priceCandidatesOf m context) []

/-- First candidate of minimal distance (head of Python's stable sort). -/
def minByDist : List PriceCand → Option PriceCand
  | [] => none
  | c :: rest =>
    match minByDist rest with
    | none => some c
    | some m => if m.dist < c.dist then some m else some c

/-- `extract_price` (src/utils/text_utils.py): search the window from 30
characters before to `context_chars` after the dish position for price
patterns and return the closest candidate's value and raw string. -/
def extract_price (text : PyStr) (dish_position : Nat) (context_chars : Nat) :
    Option Nat × Option PyStr :=
  if text = [] then (none, none)
  else
    let context :=
      pySlice text (dish_position - 30) (min text.length (dish_position + context_chars))
    match minByDist (priceCandidates context) with
    | some c => (some c.value, some c.raw)
    | none => (none, none)

/-! ## Lemmas about normalization -/

theorem pyLower_idem (c : Nat) : pyLower (pyLower c) = pyLower c := by
  unfold pyLower
  split_ifs <;> omega

theorem pyLower_space (c : Nat) (h : isPySpace c = true) : pyLower c = c := by
  simp only [isPySpace, Bool.or_eq_true, Bool.and_eq_true, decide_eq_true_eq,
    beq_iff_eq] at h
  unfold pyLower
  split_ifs <;> omega

theorem bool_eq_of_iff {a b : Bool} (h : a = true ↔ b = true) : a = b := by
  cases a <;> cases b <;> simp_all

theorem isPySpace_pyLower (c : Nat) : isPySpace (pyLower c) = isPySpace c := by
  apply bool_eq_of_iff
  simp only [isPySpace, Bool.or_eq_true, Bool.and_eq_true, decide_eq_true_eq,
    beq_iff_eq]
  unfold pyLower
  split_ifs <;> omega

theorem pyLower_word (c : Nat) (h : isPyWord c = true) : isPyWord (pyLower c) = true := by
  simp only [isPyWord, Bool.or_eq_true, Bool.and_eq_true, decide_eq_true_eq,
    beq_iff_eq] at h ⊢
  unfold pyLower
  split_ifs <;> omega

/-- Every character of `collapseWS l` is the space 32 or comes from `l`. -/
theorem collapseWS_mem {c : Nat} : ∀ {l : PyStr}, c ∈ collapseWS l → c = 32 ∨ c ∈ l
  | [], h => by simp [collapseWS] at h
  | [d], h => by
    simp only [collapseWS] at h
    split at h <;> simp_all
  | d :: e :: rest, h => by
    simp only [collapseWS] at h
    split at h
    · split at h
      · rcases collapseWS_mem h with h32 | hm
        · exact Or.inl h32
        · exact Or.inr (List.mem_cons_of_mem d hm)
      · rw [List.mem_cons] at h
        rcases h with h32 | hm
        · exact Or.inl h32
        · rcases collapseWS_mem hm with h32 | hm2
          · exact Or.inl h32
          · exact Or.inr (List.mem_cons_of_mem d hm2)
    · rw [List.mem_cons] at h
      rcases h with hc | hm
      · exact Or.inr (hc ▸ List.mem_cons_self _ _)
      · rcases collapseWS_mem hm with h32 | hm2
        · exact Or.inl h32
        · exact Or.inr (List.mem_cons_of_mem d hm2)

/-- `collapseWS (d :: rest)` starts with `d` itself, or with 32 if `d` is
whitespace. -/
theorem collapseWS_cons_head :
    ∀ (rest : PyStr) (d : Nat), ∃ t, collapseWS (d :: rest) =
      (if isPySpace d then 32 else d) :: t
  | [], d => by
    refine ⟨[], ?_⟩
    simp only [collapseWS]
    split <;> simp_all
  | e :: rest, d => by
    rcases collapseWS_cons_head rest e with ⟨t, ht⟩
    by_cases hd : isPySpace d = true <;> by_cases he : isPySpace e = true <;>
      simp [collapseWS, hd, he, ht]

/-- All whitespace characters of a collapsed string are the space 32. -/
theorem collapseWS_canonSp :
    ∀ {l : PyStr} {c : Nat}, c ∈ collapseWS l → isPySpace c = true → c = 32
  | [], c, h, _ => by simp [collapseWS] at h
  | [d], c, h, hs => by
    simp only [collapseWS] at h
    split at h <;> simp_all
  | d :: e :: rest, c, h, hs => by
    simp only [collapseWS] at h
    split at h
    · split at h
      · exact collapseWS_canonSp h hs
      · rw [List.mem_cons] at h
        rcases h with h32 | hm
        · exact h32
        · exact collapseWS_canonSp hm hs
    · rw [List.mem_cons] at h
      rcases h with hc | hm
      · subst hc; simp_all
      · exact collapseWS_canonSp hm hs

/-- The no-two-adjacent-whitespace relation. -/
def noWS2 (a b : Nat) : Prop := ¬(isPySpace a = true ∧ isPySpace b = true)

/-- A collapsed string has no two adjacent whitespace characters. -/
theorem collapseWS_chain : ∀ (l : PyStr), List.Chain' noWS2 (collapseWS l)
  | [] => by simp [collapseWS]
  | [d] => by
    simp only [collapseWS]
    split <;> simp
  | d :: e :: rest => by
    have ih := collapseWS_chain (e :: rest)
    by_cases hd : isPySpace d = true
    · by_cases he : isPySpace e = true
      · simpa [collapseWS, hd, he] using ih
      · simp only [collapseWS, hd, he, if_true, if_false, ite_true, ite_false]
        refine List.chain'_cons'.mpr ⟨?_, ih⟩
        intro y hy
        rcases collapseWS_cons_head rest e with ⟨t', ht'⟩
        rw [ht', if_neg he] at hy
        simp only [List.head?_cons, Option.mem_def, Option.some.injEq] at hy
        subst hy
        exact fun hcon => he hcon.2
    · simp only [collapseWS, hd, if_false, ite_false]
      refine List.chain'_cons'.mpr ⟨?_, ih⟩
      exact fun y _ hcon => hd hcon.1

/-- Collapsing is the identity on strings that are already canonical. -/
theorem collapseWS_fix :
    ∀ {l : PyStr}, (∀ c ∈ l, isPySpace c = true → c = 32) →
      List.Chain' noWS2 l → collapseWS l = l
  | [], _, _ => rfl
  | [d], hsp, _ => by
    simp only [collapseWS]
    split <;> simp_all
  | d :: e :: rest, hsp, hch => by
    have hch' : List.Chain' noWS2 (e :: rest) := hch.tail
    have ih := collapseWS_fix (fun c hc => hsp c (by simp [hc])) hch'
    have hde : noWS2 d e := (List.chain'_cons.mp hch).1
    by_cases hd : isPySpace d = true
    · have : ¬ isPySpace e = true := fun he => hde ⟨hd, he⟩
      have hd32 : d = 32 := hsp d (by simp) hd
      simp [collapseWS, hd, this, ih, hd32]
    · simp [collapseWS, hd, ih]

/-- `dropWhile` is idempotent. -/
theorem dropWhile_dropWhile (p : Nat → Bool) :
    ∀ l : PyStr, List.dropWhile p (List.dropWhile p l) = List.dropWhile p l
  | [] => rfl
  | c :: t => by
    by_cases h : p c = true
    · simp [List.dropWhile_cons, h, dropWhile_dropWhile p t]
    · simp [List.dropWhile_cons, h]

/-- The head of a `dropWhile` fails the predicate. -/
theorem head?_dropWhile (p : Nat → Bool) :
    ∀ {l : PyStr} {h : Nat}, (List.dropWhile p l).head? = some h → p h = false
  | [], h, hh => by simp [List.dropWhile] at hh
  | c :: t, h, hh => by
    by_cases hc : p c = true
    · rw [List.dropWhile_cons, if_pos hc] at hh
      exact head?_dropWhile p hh
    · rw [List.dropWhile_cons, if_neg hc] at hh
      simp only [List.head?_cons, Option.some.injEq] at hh
      subst hh
      exact Bool.eq_false_iff.mpr hc

/-- `dropWhile` is the identity when the head fails the predicate. -/
theorem dropWhile_eq_self_of_head (p : Nat → Bool) (l : PyStr)
    (h : ∀ c, l.head? = some c → p c = false) : List.dropWhile p l = l := by
  cases l with
  | nil => rfl
  | cons c t =>
    have := h c rfl
    simp [List.dropWhile_cons, this]

/-- Right strip: drop trailing characters matching `p`. -/
def rstripP (p : Nat → Bool) (l : PyStr) : PyStr :=
  (l.reverse.dropWhile p).reverse

theorem stripWS_eq (l : PyStr) :
    stripWS l = rstripP isPySpace (l.dropWhile isPySpace) := rfl

/-- The head survives a right strip. -/
theorem head?_rstripP (p : Nat → Bool) (l : PyStr) :
    rstripP p l = [] ∨ (rstripP p l).head? = l.head? := by
  unfold rstripP
  cases hdw : l.reverse.dropWhile p with
  | nil => left; simp
  | cons a t =>
    right
    have hsuf : (a :: t) <:+ l.reverse := hdw ▸ List.dropWhile_suffix p
    rcases hsuf with ⟨s, hs⟩
    have hl : l = (s ++ a :: t).reverse := by rw [hs, List.reverse_reverse]
    rw [List.head?_reverse, hl, List.head?_reverse,
      List.getLast?_append_of_ne_nil _ (by simp)]

/-- Left strip after the full strip changes nothing. -/
theorem dropWhile_stripWS (l : PyStr) :
    (stripWS l).dropWhile isPySpace = stripWS l := by
  rw [stripWS_eq]
  rcases head?_rstripP isPySpace (l.dropWhile isPySpace) with h | h
  · rw [h]; rfl
  · refine dropWhile_eq_self_of_head _ _ (fun c hc => ?_)
    rw [h] at hc
    exact head?_dropWhile isPySpace hc

/-- `stripWS` is idempotent. -/
theorem stripWS_idem (l : PyStr) : stripWS (stripWS l) = stripWS l := by
  rw [stripWS_eq (stripWS l), dropWhile_stripWS]
  rw [stripWS_eq]
  unfold rstripP
  rw [List.reverse_reverse, dropWhile_dropWhile]

/-- Characters of `stripWS l` come from `l`. -/
theorem stripWS_mem {c : Nat} {l : PyStr} (h : c ∈ stripWS l) : c ∈ l := by
  unfold stripWS at h
  rw [List.mem_reverse] at h
  have h1 := (List.dropWhile_suffix isPySpace).sublist.mem h
  rw [List.mem_reverse] at h1
  exact (List.dropWhile_suffix isPySpace).sublist.mem h1

/-- `stripWS` preserves the no-two-adjacent-whitespace chain. -/
theorem stripWS_chain {l : PyStr} (h : List.Chain' noWS2 l) :
    List.Chain' noWS2 (stripWS l) := by
  have hsym : ∀ a b, noWS2 a b → noWS2 b a := by
    intro a b hab ⟨h1, h2⟩; exact hab ⟨h2, h1⟩
  have chain_suffix : ∀ {m s : PyStr}, List.Chain' noWS2 m → s <:+ m →
      List.Chain' noWS2 s := by
    intro m s hm ⟨t, ht⟩
    subst ht
    exact (List.chain'_append.mp hm).2.1
  have h1 : List.Chain' noWS2 (l.dropWhile isPySpace) :=
    chain_suffix h (List.dropWhile_suffix isPySpace)
  have h2 : List.Chain' noWS2 (l.dropWhile isPySpace).reverse := by
    rw [List.chain'_reverse]
    exact h1.imp (fun a b hab => hsym a b hab)
  have h3 : List.Chain' noWS2 ((l.dropWhile isPySpace).reverse.dropWhile isPySpace) :=
    chain_suffix h2 (List.dropWhile_suffix isPySpace)
  unfold stripWS
  rw [List.chain'_reverse]
  exact h3.imp (fun a b hab => hsym a b hab)

/-- A map that fixes every member is the identity. -/
theorem map_eq_self_of_mem {f : Nat → Nat} {l : PyStr} (h : ∀ c ∈ l, f c = c) :
    l.map f = l := by
  conv_rhs => rw [← List.map_id l]
  exact List.map_congr_left h

/-- `normalize_text` is idempotent. -/
theorem normalize_text_idem (x : PyStr) :
    normalize_text (normalize_text x) = normalize_text x := by
  by_cases hx : x = []
  · subst hx; rfl
  · have hnt : normalize_text x = stripWS (collapseWS (x.map pyLower)) := by
      simp [normalize_text, hx]
    by_cases h0 : normalize_text x = []
    · rw [h0]; rfl
    · have hmem : ∀ c ∈ normalize_text x, pyLower c = c := by
        intro c hc
        rw [hnt] at hc
        rcases collapseWS_mem (stripWS_mem hc) with h32 | hmap
        · subst h32; rfl
        · rcases List.mem_map.mp hmap with ⟨b, _, hb⟩
          rw [← hb]
          exact pyLower_idem b
      have hsp : ∀ c ∈ normalize_text x, isPySpace c = true → c = 32 := by
        intro c hc
        rw [hnt] at hc
        exact collapseWS_canonSp (stripWS_mem hc)
      have hch : List.Chain' noWS2 (normalize_text x) := by
        rw [hnt]
        exact stripWS_chain (collapseWS_chain _)
      set m := normalize_text x with hm
      have hstep : normalize_text m = stripWS (collapseWS (m.map pyLower)) := by
        simp [normalize_text, h0]
      calc normalize_text m = stripWS (collapseWS (m.map pyLower)) := hstep
        _ = stripWS (collapseWS m) := by rw [map_eq_self_of_mem hmem]
        _ = stripWS m := by rw [collapseWS_fix hsp hch]
        _ = m := by rw [hnt]; exact stripWS_idem _

/-- Characters of `normalize_text x` are 32 or lowered characters of `x`. -/
theorem normalize_text_mem {c : Nat} {x : PyStr} (h : c ∈ normalize_text x) :
    c = 32 ∨ c ∈ x.map pyLower := by
  by_cases hx : x = []
  · subst hx; simp [normalize_text] at h
  · simp only [normalize_text, hx, if_neg, ite_false] at h
    exact collapseWS_mem (stripWS_mem h)

/-! ## Lemmas about substring search -/

/-- If `strFind` succeeds at `i`, the needle is a prefix of the drop at `i`. -/
theorem strFind_prefix {needle : PyStr} :
    ∀ {hay : PyStr} {i : Nat}, strFind hay needle = some i →
      needle.isPrefixOf (hay.drop i) = true := by
  intro hay
  induction hay with
  | nil =>
    intro i h
    unfold strFind at h
    split at h
    · rename_i hp
      cases h
      simpa using hp
    · simp at h
  | cons c t ih =>
    intro i h
    unfold strFind at h
    split at h
    · rename_i hp
      cases h
      simpa using hp
    · simp only [Option.map_eq_some'] at h
      rcases h with ⟨j, hj, hji⟩
      subst hji
      simpa using ih hj

/-- If the needle occurs as an infix, `strFind` succeeds. -/
theorem strFind_isSome_of_isInfix {needle : PyStr} :
    ∀ {hay : PyStr}, needle <:+: hay → (strFind hay needle).isSome = true := by
  intro hay hinf
  rcases hinf with ⟨s, t, hst⟩
  induction s generalizing hay with
  | nil =>
    have hp : needle.isPrefixOf hay = true := by
      rw [List.isPrefixOf_iff_prefix]
      exact ⟨t, by simpa using hst⟩
    unfold strFind
    rw [if_pos hp]
    rfl
  | cons a s' ih =>
    cases hay with
    | nil => simp at hst
    | cons b hay' =>
      have hst' : s' ++ needle ++ t = hay' := by
        rw [List.append_assoc]
        simpa using congrArg List.tail hst
      have hsome := ih hst'
      unfold strFind
      split
      · rfl
      · simpa using hsome

/-- `strContains` agrees with list infix. -/
theorem strContains_iff_isInfix {hay needle : PyStr} :
    strContains hay needle = true ↔ needle <:+: hay := by
  constructor
  · intro h
    unfold strContains at h
    rcases Option.isSome_iff_exists.mp h with ⟨i, hi⟩
    have hp := strFind_prefix hi
    rw [List.isPrefixOf_iff_prefix] at hp
    rcases hp with ⟨t, ht⟩
    exact ⟨hay.take i, t, by rw [List.append_assoc, ht]; simp⟩
  · exact strFind_isSome_of_isInfix

/-! ## Range lemmas for price candidates -/

/-- Every candidate produced by one pattern passes the 50–50000 sanity bound. -/
theorem priceCandidatesOf_range {m : PyStr → Nat → Option (Nat × Nat)}
    {context : PyStr} {c : PriceCand} (h : c ∈ priceCandidatesOf m context) :
    50 ≤ c.value ∧ c.value ≤ 50000 := by
  unfold priceCandidatesOf at h
  rcases List.mem_filterMap.mp h with ⟨r, _, hr⟩
  split at hr
  · rename_i hcond
    cases hr
    exact hcond
  · cases hr

/-- Every collected candidate passes the sanity bound. -/
theorem priceCandidates_range {context : PyStr} {c : PriceCand}
    (h : c ∈ priceCandidates context) : 50 ≤ c.value ∧ c.value ≤ 50000 := by
  unfold priceCandidates at h
  suffices H : ∀ (ms : List (PyStr → Nat → Option (Nat × Nat)))
      (acc : List PriceCand),
      (∀ c' ∈ acc, 50 ≤ c'.value ∧ c'.value ≤ 50000) →
      c ∈ ms.foldl (fun acc m => acc ++ priceCandidatesOf m context) acc →
      50 ≤ c.value ∧ c.value ≤ 50000 by
    exact H pricePatterns [] (by simp) h
  intro ms
  induction ms with
  | nil =>
    intro acc hacc hc
    exact hacc c hc
  | cons m ms ih =>
    intro acc hacc hc
    refine ih _ ?_ hc
    intro c' hc'
    rcases List.mem_append.mp hc' with h1 | h2
    · exact hacc c' h1
    · exact priceCandidatesOf_range h2

/-- The minimal-distance candidate is one of the candidates. -/
theorem minByDist_mem : ∀ {l : List PriceCand} {c : PriceCand},
    minByDist l = some c → c ∈ l
  | [], c, h => by simp [minByDist] at h
  | a :: rest, c, h => by
    unfold minByDist at h
    cases hrec : minByDist rest with
    | none =>
      rw [hrec] at h
      cases h
      exact List.mem_cons_self _ _
    | some m =>
      rw [hrec] at h
      dsimp only at h
      by_cases hlt : m.dist < a.dist
      · rw [if_pos hlt] at h
        injection h with h
        subst h
        exact List.mem_cons_of_mem _ (minByDist_mem hrec)
      · rw [if_neg hlt] at h
        injection h with h
        subst h
        exact List.mem_cons_self _ _

/-! ## Claim theorems: text utilities -/

/-- C2 (counterexample): the claim fails when the normalized dish name is
empty.  `normalize_for_search(".") = ""` is a substring of every text, yet
`find_dish_in_text(".", "abc")` returns none because of the emptiness guard. -/
theorem C2_counterexample_find_dish_empty_dish :
    normalize_for_search (pyStr ".") <:+: normalize_for_search (pyStr "abc") ∧
    find_dish_in_text (pyStr ".") (pyStr "abc") = none := by
  constructor
  · decide
  · decide

/-- C2 (amended): for every dish name `d` and text `t`, if
`normalize_for_search d` is nonempty and a substring of
`normalize_for_search t`, then `find_dish_in_text d t` returns a non-none
offset (via the direct-substring strategy). -/
theorem C2_find_dish_substring_amended (d t : PyStr)
    (hne : normalize_for_search d ≠ [])
    (hsub : normalize_for_search d <:+: normalize_for_search t) :
    (find_dish_in_text d t).isSome = true := by
  have hfind := strFind_isSome_of_isInfix hsub
  have htne : normalize_for_search t ≠ [] := by
    intro h0
    rw [h0] at hsub
    exact hne (List.eq_nil_of_length_eq_zero
      (Nat.le_zero.mp (by simpa using hsub.length_le)))
  simp only [find_dish_in_text]
  rw [if_neg (by simp [hne, htne])]
  rcases Option.isSome_iff_exists.mp hfind with ⟨p, hp⟩
  rw [hp]
  rfl

/-- C2 witness: concrete instance of the amended claim. -/
theorem C2_find_dish_substring_amended_witness :
    normalize_for_search (pyStr "борщ") ≠ [] ∧
    (find_dish_in_text (pyStr "борщ") (pyStr "меню: Борщ — 300 ₽")).isSome = true :=
  ⟨by decide,
   C2_find_dish_substring_amended _ _ (by decide)
     (strContains_iff_isInfix.mp (by decide))⟩

/-- C3: `extract_price` never returns a numeric value outside [50, 50000],
and on the text `"Салат — 450 ₽"` with the anchor at the start of the dish
name it returns exactly 450. -/
theorem C3_extract_price_range_and_anchor_example :
    (∀ (text : PyStr) (dish_position context_chars v : Nat),
        (extract_price text dish_position context_chars).1 = some v →
        50 ≤ v ∧ v ≤ 50000) ∧
    (extract_price (pyStr "Салат — 450 ₽") 0 150).1 = some 450 := by
  constructor
  · intro text dp cc v h
    unfold extract_price at h
    split at h
    · simp at h
    · dsimp only at h
      split at h
      · rename_i c heq
        simp only [Option.some.injEq] at h
        subst h
        exact priceCandidates_range (minByDist_mem heq)
      · simp at h
  · decide

/-- C3 witness: the bound holds at the concrete extraction. -/
theorem C3_extract_price_range_witness : 50 ≤ 450 ∧ 450 ≤ 50000 :=
  C3_extract_price_range_and_anchor_example.1 (pyStr "Салат — 450 ₽") 0 150 450
    C3_extract_price_range_and_anchor_example.2

/-- C7 (counterexample): `normalize_for_search` is not idempotent.  On
`"a , b"` the comma is removed after whitespace collapsing, leaving the two
adjacent spaces `"a  b"`; a second application collapses them to `"a b"`. -/
theorem C7_counterexample_normalize_not_idempotent :
    normalize_for_search (normalize_for_search (pyStr "a , b")) ≠
      normalize_for_search (pyStr "a , b") := by decide

/-- C7 (amended): `normalize_for_search` is idempotent on every input string
containing no punctuation, i.e. in which every character is a word character
or whitespace (the characters the punctuation strip removes are exactly the
ones that can leave adjacent spaces behind). -/
theorem C7_normalize_idempotent_amended (x : PyStr)
    (h : ∀ c ∈ x, isPyWord c = true ∨ isPySpace c = true) :
    normalize_for_search (normalize_for_search x) = normalize_for_search x := by
  have hnt : (normalize_text x).filter (fun c => isPyWord c || isPySpace c) =
      normalize_text x := by
    rw [List.filter_eq_self]
    intro a ha
    rcases normalize_text_mem ha with h32 | hmap
    · subst h32; decide
    · rcases List.mem_map.mp hmap with ⟨b, hb, hba⟩
      rcases h b hb with hw | hs
      · rw [← hba]
        simp [pyLower_word b hw]
      · rw [← hba, pyLower_space b hs]
        simp [hs]
  have hx : normalize_for_search x = normalize_text x := hnt
  rw [hx]
  unfold normalize_for_search
  rw [normalize_text_idem]
  exact hnt

/-- C7 witness: a concrete punctuation-free input. -/
theorem C7_normalize_idempotent_amended_witness :
    (∀ c ∈ pyStr "зеленый  салат", isPyWord c = true ∨ isPySpace c = true) ∧
    normalize_for_search (normalize_for_search (pyStr "зеленый  салат")) =
      normalize_for_search (pyStr "зеленый  салат") :=
  ⟨by decide, C7_normalize_idempotent_amended _ (by decide)⟩

/-! ## Data model (src/models/schemas.py, src/services/menu_parser_v2.py) -/

/-- `RestaurantStatus` (src/models/schemas.py). -/
inductive RestaurantStatus
  | found
  | found_no_price
  | menu_unavailable
  | site_not_found
  | pending
  deriving DecidableEq, Repr

/-- `MenuSource` (src/services/menu_parser_v2.py). -/
inductive MenuSource
  | static_html
  | browser_render
  | pdf_text
  | pdf_ocr
  deriving DecidableEq, Repr

/-- `MenuParseResult` (src/services/menu_parser_v2.py). -/
structure MenuParseResultM where
  success : Bool
  menu_url : Option PyStr := none
  menu_text : Option PyStr := none
  source : Option MenuSource := none
  dish_found : Bool := false
  dish_position : Option Nat := none
  price : Option Nat := none
  price_raw : Option PyStr := none
  error : Option PyStr := none
  deriving DecidableEq, Repr

/-- `MenuItem` (src/models/schemas.py). -/
structure MenuItemM where
  name : PyStr
  price : Option Nat := none
  price_raw : Option PyStr := none
  deriving DecidableEq, Repr

/-- `DishSearchResult` (src/services/dish_matcher_v2.py), restaurant field
omitted (the input restaurant is carried through unchanged apart from the
website, which is the `website` input here). -/
structure DishSearchResultM where
  status : RestaurantStatus
  menu_url : Option PyStr := none
  menu_item : Option MenuItemM := none
  menu_source : Option MenuSource := none
  error_message : Option PyStr := none
  deriving DecidableEq, Repr

/-- Python letters (`str.isalpha`-style) on the modelled repertoire. -/
def isPyAlpha (c : Nat) : Bool :=
  (65 ≤ c && c ≤ 90) || (97 ≤ c && c ≤ 122) || (1040 ≤ c && c ≤ 1103) ||
  c == 1025 || c == 1105

/-- Python `str.upper` on the modelled repertoire. -/
def pyUpper (c : Nat) : Nat :=
  if 97 ≤ c ∧ c ≤ 122 then c - 32
  else if 1072 ≤ c ∧ c ≤ 1103 then c - 32
  else if c = 1105 then 1025
  else c

/-- Helper for `str.title`: the flag records whether the previous character
was a letter. -/
def pyTitleGo : Bool → PyStr → PyStr
  | _, [] => []
  | prev, c :: rest =>
    let c' := if isPyAlpha c then (if prev then pyLower c else pyUpper c) else c
    c' :: pyTitleGo (isPyAlpha c) rest

/-- Python `str.title()`: uppercase each letter that starts a letter group,
lowercase the rest of the group. -/
def pyTitle (l : PyStr) : PyStr := pyTitleGo false l

/-- The word scan of `_extract_dish_name`: take words until one that contains
a digit and has length at most 4 (a price-like token). -/
def takeDishWords : List PyStr → List PyStr
  | [] => []
  | w :: rest =>
    if w.any isDigitCp && w.length ≤ 4 then []
    else w :: takeDishWords rest

/-- Join words with single spaces (Python `" ".join`). -/
def joinSpace : List PyStr → PyStr
  | [] => []
  | [w] => w
  | w :: rest => w ++ 32 :: joinSpace rest

/-- `DishMatcherV2._extract_dish_name` (src/services/dish_matcher_v2.py):
reconstruct the menu's own dish label from the context around the match, or
fall back to the title-cased query. -/
def extract_dish_name (text : Option PyStr) (position : Option Nat)
    (search_query : PyStr) : PyStr :=
  match text, position with
  | some t, some pos =>
    if t = [] then pyTitle search_query
    else
      let context := pySlice t (pos - 10) (min t.length (pos + 50))
      let words := splitWS context
      if words.length ≥ 2 then
        let dish_words := takeDishWords (words.take 4)
        if dish_words ≠ [] then joinSpace dish_words else pyTitle search_query
      else pyTitle search_query
  | _, _ => pyTitle search_query

/-- `DishMatcherV2.search_dish` (src/services/dish_matcher_v2.py), as a
function of its two collaborator results: the website found by the site
finder (step 1) and the parse result of the menu parser / task queue
(step 2).  Steps 3–5 of the source are embedded directly. -/
def DishMatcherV2.search_dish (website : Option PyStr)
    (parse_result : MenuParseResultM) (dish_name : PyStr) : DishSearchResultM :=
  match website with
  | none => { status := .site_not_found }
  | some _ =>
    if parse_result.success = false then
      { status := .menu_unavailable,
        error_message := some (match parse_result.error with
          | some e => if e = [] then pyStr "Menu not found" else e
          | none => pyStr "Menu not found") }
    else if parse_result.dish_found = false then
      { status := .menu_unavailable,
        menu_url := parse_result.menu_url,
        menu_source := parse_result.source,
        error_message := some (pyStr "Dish not found in menu") }
    else
      let matched_name := extract_dish_name parse_result.menu_text
        parse_result.dish_position dish_name
      { status := if parse_result.price.isSome then .found else .found_no_price,
        menu_url := parse_result.menu_url,
        menu_source := parse_result.source,
        menu_item := some { name := matched_name,
                            price := parse_result.price,
                            price_raw := parse_result.price_raw } }

/-- C1: `search_dish` always returns one of the four terminal statuses, never
`pending`: `site_not_found` exactly when no website was resolved;
`menu_unavailable` exactly when parsing failed or the dish was not found;
`found` exactly when the dish was found with a price; `found_no_price`
exactly when the dish was found without a price. -/
theorem C1_search_dish_terminal_status (website : Option PyStr)
    (parse_result : MenuParseResultM) (dish_name : PyStr) :
    (DishMatcherV2.search_dish website parse_result dish_name).status ≠
        RestaurantStatus.pending ∧
    ((DishMatcherV2.search_dish website parse_result dish_name).status =
        RestaurantStatus.site_not_found ↔ website = none) ∧
    ((DishMatcherV2.search_dish website parse_result dish_name).status =
        RestaurantStatus.menu_unavailable ↔
      website ≠ none ∧
        (parse_result.success = false ∨ parse_result.dish_found = false)) ∧
    ((DishMatcherV2.search_dish website parse_result dish_name).status =
        RestaurantStatus.found ↔
      website ≠ none ∧ parse_result.success = true ∧
        parse_result.dish_found = true ∧ parse_result.price.isSome = true) ∧
    ((DishMatcherV2.search_dish website parse_result dish_name).status =
        RestaurantStatus.found_no_price ↔
      website ≠ none ∧ parse_result.success = true ∧
        parse_result.dish_found = true ∧ parse_result.price = none) := by
  cases website <;>
    cases hs : parse_result.success <;>
    cases hd : parse_result.dish_found <;>
    cases hp : parse_result.price <;>
    simp [DishMatcherV2.search_dish, hs, hd, hp]

/-! ## SQLite cache model (src/services/cache.py) -/

/-- A row of the SQLite `cache` table: key, value, optional expiry time.
Times are modelled as natural-number seconds. -/
structure CacheRow where
  key : PyStr
  value : PyStr
  expires_at : Option Nat
  deriving DecidableEq, Repr

/-- The `cache` table (key is the primary key). -/
abbrev CacheDb := List CacheRow

/-- `SELECT ... FROM cache WHERE key = ?`. -/
def dbLookup (db : CacheDb) (k : PyStr) : Option CacheRow :=
  db.find? (fun r => r.key == k)

/-- `DELETE FROM cache WHERE key = ?`. -/
def dbDelete (db : CacheDb) (k : PyStr) : CacheDb :=
  db.filter (fun r => r.key != k)

/-- `INSERT OR REPLACE INTO cache ...`: the primary key makes this an upsert. -/
def dbUpsert (db : CacheDb) (row : CacheRow) : CacheDb :=
  dbDelete db row.key ++ [row]

/-- `SQLiteCache._set_sync` (src/services/cache.py):
`expires_at = time.time() + ttl if ttl else None` — a falsy ttl (`None` or 0)
stores no expiry. -/
def SQLiteCache.set_sync (db : CacheDb) (now : Nat) (key value : PyStr)
    (ttl : Option Nat) : CacheDb :=
  let expires_at :=
    match ttl with
    | some t => if t ≠ 0 then some (now + t) else none
    | none => none
  dbUpsert db ⟨key, value, expires_at⟩

/-- `SQLiteCache._get_sync` (src/services/cache.py): a row whose `expires_at`
is truthy (nonzero) and in the past is deleted and reported as a miss; the
updated table is returned alongside the result. -/
def SQLiteCache.get_sync (db : CacheDb) (now : Nat) (key : PyStr) :
    Option PyStr × CacheDb :=
  match dbLookup db key with
  | none => (none, db)
  | some row =>
    match row.expires_at with
    | some e =>
      if e ≠ 0 ∧ e < now then (none, dbDelete db key)
      else (some row.value, db)
    | none => (some row.value, db)

/-- `find?` skips a block that fails the predicate everywhere. -/
theorem find?_append_right {p : CacheRow → Bool} {l₁ l₂ : List CacheRow}
    (h : ∀ r ∈ l₁, p r = false) : (l₁ ++ l₂).find? p = l₂.find? p := by
  induction l₁ with
  | nil => rfl
  | cons a t ih =>
    rw [List.cons_append, List.find?_cons, h a (by simp)]
    exact ih (fun r hr => h r (by simp [hr]))

/-- Looking up the upserted key finds the new row. -/
theorem dbLookup_upsert_self (db : CacheDb) (row : CacheRow) :
    dbLookup (dbUpsert db row) row.key = some row := by
  unfold dbUpsert dbLookup
  rw [find?_append_right]
  · simp [List.find?_cons]
  · intro r hr
    unfold dbDelete at hr
    have := List.of_mem_filter hr
    simpa using this

/-- Upserting one key leaves lookups of other keys unchanged. -/
theorem dbLookup_upsert_other (db : CacheDb) (row : CacheRow) (k : PyStr)
    (h : k ≠ row.key) : dbLookup (dbUpsert db row) k = dbLookup db k := by
  unfold dbUpsert dbLookup dbDelete
  induction db with
  | nil =>
    have hrk : (row.key == k) = false := by
      simp only [beq_eq_false_iff_ne, ne_eq]
      exact fun he => h he.symm
    simp [hrk]
  | cons r t ih =>
    rw [List.filter_cons]
    by_cases hrk : r.key == row.key
    · have : (r.key != row.key) = false := by simp_all
      rw [this]
      simp only [Bool.false_eq_true, if_false, ite_false]
      rw [ih, List.find?_cons]
      have hkey : r.key = row.key := by simpa using hrk
      have hck : (r.key == k) = false := by
        simp only [beq_eq_false_iff_ne, ne_eq, hkey]
        exact fun he => h he.symm
      rw [hck]
    · have : (r.key != row.key) = true := by simp_all
      rw [this]
      simp only [if_true, ite_true]
      rw [List.cons_append, List.find?_cons, List.find?_cons]
      cases hk : r.key == k with
      | true => rfl
      | false => exact ih

/-- After a delete, the deleted key is absent. -/
theorem dbLookup_delete_self (db : CacheDb) (k : PyStr) :
    dbLookup (dbDelete db k) k = none := by
  unfold dbLookup dbDelete
  induction db with
  | nil => rfl
  | cons r t ih =>
    rw [List.filter_cons]
    by_cases h : r.key == k
    · have : (r.key != k) = false := by simp_all
      rw [this]
      simp only [Bool.false_eq_true, if_false, ite_false]
      exact ih
    · have : (r.key != k) = true := by simp_all
      rw [this]
      simp only [if_true, ite_true]
      rw [List.find?_cons]
      rw [Bool.eq_false_iff.mpr h]
      exact ih

/-- C8: for the SQLite backend, `set` with a positive ttl followed by `get`
at or before the expiry time returns the stored value; a `get` after the
expiry time returns none and lazily evicts the row, so a read past expiry is
a miss. -/
theorem C8_sqlite_cache_ttl (db : CacheDb) (t0 now : Nat) (key value : PyStr)
    (ttl : Nat) (httl : 0 < ttl) :
    (now ≤ t0 + ttl →
      (SQLiteCache.get_sync (SQLiteCache.set_sync db t0 key value (some ttl))
        now key).1 = some value) ∧
    (t0 + ttl < now →
      (SQLiteCache.get_sync (SQLiteCache.set_sync db t0 key value (some ttl))
        now key).1 = none ∧
      dbLookup (SQLiteCache.get_sync (SQLiteCache.set_sync db t0 key value
        (some ttl)) now key).2 key = none) := by
  have hset : dbLookup (SQLiteCache.set_sync db t0 key value (some ttl)) key =
      some ⟨key, value, some (t0 + ttl)⟩ := by
    unfold SQLiteCache.set_sync
    dsimp only
    rw [if_pos (by omega : ttl ≠ 0)]
    exact dbLookup_upsert_self db ⟨key, value, some (t0 + ttl)⟩
  constructor
  · intro hle
    unfold SQLiteCache.get_sync
    rw [hset]
    dsimp only
    rw [if_neg (by omega)]
  · intro hgt
    unfold SQLiteCache.get_sync
    rw [hset]
    dsimp only
    rw [if_pos ⟨by omega, hgt⟩]
    exact ⟨rfl, dbLookup_delete_self _ key⟩

/-- C8 witness: a concrete set/get round trip and expiry. -/
theorem C8_sqlite_cache_ttl_witness :
    (SQLiteCache.get_sync (SQLiteCache.set_sync [] 0 (pyStr "k") (pyStr "v")
      (some 10)) 5 (pyStr "k")).1 = some (pyStr "v") ∧
    (SQLiteCache.get_sync (SQLiteCache.set_sync [] 0 (pyStr "k") (pyStr "v")
      (some 10)) 11 (pyStr "k")).1 = none :=
  ⟨(C8_sqlite_cache_ttl [] 0 5 (pyStr "k") (pyStr "v") 10 (by decide)).1
      (by decide),
   ((C8_sqlite_cache_ttl [] 0 11 (pyStr "k") (pyStr "v") 10 (by decide)).2
      (by decide)).1⟩

/-- C9: `set` with ttl 0 (or `None`) stores a row with no expiry, so a later
`get` at any time returns the stored value — ttl 0 is not treated as
immediately expired. -/
theorem C9_sqlite_cache_ttl_zero_no_expiry (db : CacheDb) (t0 now : Nat)
    (key value : PyStr) :
    (SQLiteCache.get_sync (SQLiteCache.set_sync db t0 key value (some 0))
      now key).1 = some value ∧
    (SQLiteCache.get_sync (SQLiteCache.set_sync db t0 key value none)
      now key).1 = some value := by
  constructor
  · have hset : dbLookup (SQLiteCache.set_sync db t0 key value (some 0)) key =
        some ⟨key, value, none⟩ := by
      unfold SQLiteCache.set_sync
      dsimp only
      rw [if_neg (by omega : ¬(0 : Nat) ≠ 0)]
      exact dbLookup_upsert_self db ⟨key, value, none⟩
    unfold SQLiteCache.get_sync
    rw [hset]
  · have hset : dbLookup (SQLiteCache.set_sync db t0 key value none) key =
        some ⟨key, value, none⟩ := by
      unfold SQLiteCache.set_sync
      dsimp only
      exact dbLookup_upsert_self db ⟨key, value, none⟩
    unfold SQLiteCache.get_sync
    rw [hset]

/-- `MenuCache._make_key` (src/services/cache.py): `prefix:hash16` where
`hash16` is the first 16 hex digits of the SHA-256 of `url:extra`.  The hash
function itself is an abstract parameter of the model. -/
def MenuCache.make_key (hashHex : PyStr → PyStr) (pre url extra : PyStr) : PyStr :=
  pre ++ pyStr ":" ++ (hashHex (url ++ pyStr ":" ++ extra)).take 16

/-- Unequal heads make unequal strings. -/
theorem ne_of_head?_ne {a b : PyStr} (h : a.head? ≠ b.head?) : a ≠ b := by
  intro he
  exact h (by rw [he])

/-- C10: for any one URL the `MenuCache` keys for PDF text, menu HTML and
menu text are pairwise distinct (whatever the hash does), and writing under
one of them leaves the backend's rows under the others untouched. -/
theorem C10_menu_cache_key_namespacing (hashHex : PyStr → PyStr) (url : PyStr)
    (db : CacheDb) (now : Nat) (v : PyStr) (ttl : Option Nat) :
    (MenuCache.make_key hashHex (pyStr "pdf") url [] ≠
      MenuCache.make_key hashHex (pyStr "html") url []) ∧
    (MenuCache.make_key hashHex (pyStr "pdf") url [] ≠
      MenuCache.make_key hashHex (pyStr "text") url []) ∧
    (MenuCache.make_key hashHex (pyStr "html") url [] ≠
      MenuCache.make_key hashHex (pyStr "text") url []) ∧
    (dbLookup (SQLiteCache.set_sync db now
        (MenuCache.make_key hashHex (pyStr "pdf") url []) v ttl)
        (MenuCache.make_key hashHex (pyStr "html") url []) =
      dbLookup db (MenuCache.make_key hashHex (pyStr "html") url [])) ∧
    (dbLookup (SQLiteCache.set_sync db now
        (MenuCache.make_key hashHex (pyStr "html") url []) v ttl)
        (MenuCache.make_key hashHex (pyStr "text") url []) =
      dbLookup db (MenuCache.make_key hashHex (pyStr "text") url [])) := by
  have hpdf : (MenuCache.make_key hashHex (pyStr "pdf") url []).head? =
      some 112 := rfl
  have hhtml : (MenuCache.make_key hashHex (pyStr "html") url []).head? =
      some 104 := rfl
  have htext : (MenuCache.make_key hashHex (pyStr "text") url []).head? =
      some 116 := rfl
  refine ⟨ne_of_head?_ne ?_, ne_of_head?_ne ?_, ne_of_head?_ne ?_, ?_, ?_⟩
  · rw [hpdf, hhtml]; simp
  · rw [hpdf, htext]; simp
  · rw [hhtml, htext]; simp
  · unfold SQLiteCache.set_sync
    exact dbLookup_upsert_other db _ _
      (ne_of_head?_ne (by rw [hpdf, hhtml]; simp)).symm
  · unfold SQLiteCache.set_sync
    exact dbLookup_upsert_other db _ _
      (ne_of_head?_ne (by rw [hhtml, htext]; simp)).symm

/-! ## Menu parser model (src/services/menu_parser_v2.py)

The parser's pure text logic (menu heuristic, link scoring, dish search,
price extraction) is embedded directly; its effectful collaborators (HTTP
client, HTML parsing into links/text, PDF extraction, the headless browser)
are inputs collected in a `ParseEnv` record, each modelling one call the
source makes.  Cache writes in the source only store fetched text and do not
affect the returned result, so they are not represented. -/

/-- `MENU_KEYWORDS` (src/services/menu_parser_v2.py), in source order. -/
def MENU_KEYWORDS : List PyStr :=
  [pyStr "menu", pyStr "меню", pyStr "carta", pyStr "dishes", pyStr "блюда",
   pyStr "food", pyStr "кухня", pyStr "еда", pyStr "kitchen",
   pyStr "ассортимент"]

/-- `COMMON_MENU_PATHS` (src/services/menu_parser_v2.py), in source order. -/
def COMMON_MENU_PATHS : List PyStr :=
  [pyStr "/menu", pyStr "/меню", pyStr "/food", pyStr "/dishes",
   pyStr "/kitchen", pyStr "/кухня", pyStr "/catalog", pyStr "/ассортимент",
   pyStr "/carta"]

/-- `MIN_CONTENT_LENGTH` (src/services/menu_parser_v2.py). -/
def MIN_CONTENT_LENGTH : Nat := 200

/-- The URL markers of `_page_looks_like_menu`. -/
def menu_url_markers : List PyStr :=
  [pyStr "/menu", pyStr "/food", pyStr "/dishes", pyStr "/кухня"]

/-- The text indicators of `_page_looks_like_menu`, in source order. -/
def menu_indicators : List PyStr :=
  [pyStr "меню", pyStr "блюд", pyStr "цена", pyStr "порция", pyStr "грамм",
   pyStr "салат", pyStr "суп", pyStr "горячее", pyStr "десерт",
   pyStr "напитки", pyStr "закуск", pyStr "₽", pyStr "руб", pyStr "menu",
   pyStr "dishes", pyStr "price"]

/-- `MenuParserV2._page_looks_like_menu`: true when the URL contains a
menu-indicating segment, or at least 3 of the indicator keywords occur in
the text. -/
def page_looks_like_menu (text url : PyStr) : Bool :=
  let text_lower := text.map pyLower
  let url_lower := url.map pyLower
  menu_url_markers.any (fun kw => strContains url_lower kw) ||
    decide (3 ≤ menu_indicators.countP (fun ind => strContains text_lower ind))

/-- The pattern list of `PDFParser.is_pdf_url` (src/services/pdf_parser.py). -/
def pdf_url_patterns : List PyStr :=
  [pyStr "/menu.pdf", pyStr "/меню.pdf", pyStr "download=pdf",
   pyStr "format=pdf", pyStr "/files/menu", pyStr "/upload/menu"]

/-- `PDFParser.is_pdf_url` (src/services/pdf_parser.py): `.pdf` extension or
a common PDF URL pattern, on the lowered URL. -/
def PdfParser.is_pdf_url (url : PyStr) : Bool :=
  let url_lower := url.map pyLower
  (pyStr ".pdf").isSuffixOf url_lower ||
    pdf_url_patterns.any (fun p => strContains url_lower p)

/-- The OCR-artifact heuristic of `_parse_pdf_menu`:
`re.search(r"[|]{2,}|[_]{3,}", text)` succeeds exactly when the text contains
two adjacent pipes or three adjacent underscores. -/
def hasOcrArtifacts (text : PyStr) : Bool :=
  strContains text (pyStr "||") || strContains text (pyStr "___")

/-- An `<a>` element: its `href` attribute and visible text. -/
structure LinkM where
  href : PyStr
  text : PyStr
  deriving DecidableEq, Repr

/-- `BrowserResult` (src/services/browser_service.py). -/
structure BrowserResultM where
  html : PyStr := []
  text : PyStr := []
  url : PyStr := []
  success : Bool
  error : Option PyStr := none
  deriving DecidableEq, Repr

/-- The effectful collaborators of `MenuParserV2`, as deterministic
functions: the cache read, the HTTP client, BeautifulSoup text extraction
and link listing for an HTML string, `urllib.parse.urljoin`, the PDF
parser's link finder and text extractor, the browser renderer, and the
browser service's menu-link finder (top link hrefs). -/
structure ParseEnv where
  cacheMenuText : PyStr → Option PyStr
  /-- `none` models both a `None` return and an empty page: the source only
  tests these results for truthiness (`if not html:`), which identifies the
  two. -/
  httpGet : PyStr → Option PyStr
  extractText : PyStr → PyStr
  pageLinks : PyStr → List LinkM
  urljoin : PyStr → PyStr → PyStr
  findPdfLinks : PyStr → PyStr → List PyStr
  pdfExtract : PyStr → Option PyStr
  renderPage : PyStr → BrowserResultM
  browserMenuLinks : PyStr → PyStr → List PyStr

/-- The per-link score of `MenuParserV2._find_menu_url`: +10 per keyword in
the visible text, +5 per keyword in the lowered href. -/
def MenuParserV2.linkScore (text href : PyStr) : Nat :=
  MENU_KEYWORDS.foldl
    (fun score kw =>
      let score := if strContains text kw then score + 10 else score
      if strContains (href.map pyLower) kw then score + 5 else score)
    0

/-- The scored candidates of `_find_menu_url`: each link with a stripped,
non-`javascript:` href and a positive score, paired with its joined URL, in
page order. -/
def MenuParserV2.linkCandidates (links : List LinkM)
    (urljoin : PyStr → PyStr → PyStr) (base_url : PyStr) : List (Nat × PyStr) :=
  links.filterMap fun link =>
    let href := stripWS link.href
    let text := stripWS (link.text.map pyLower)
    if href = [] ∨ (pyStr "javascript:").isPrefixOf href then none
    else
      let score := MenuParserV2.linkScore text href
      if 0 < score then some (score, urljoin base_url href) else none

/-- Stable descending insertion by score (Python's stable
`sort(key=..., reverse=True)`): an element goes before the first earlier
element with a not-larger score. -/
def insertScoreDesc (x : Nat × PyStr) : List (Nat × PyStr) → List (Nat × PyStr)
  | [] => [x]
  | y :: t => if y.1 > x.1 then y :: insertScoreDesc x t else x :: y :: t

/-- Stable descending sort by score. -/
def sortScoreDesc (l : List (Nat × PyStr)) : List (Nat × PyStr) :=
  l.foldr insertScoreDesc []

/-- `MenuParserV2._find_menu_url`: score all links, sort descending, return
the best candidate's URL. -/
def MenuParserV2.find_menu_url (env : ParseEnv) (html base_url : PyStr) :
    Option PyStr :=
  (sortScoreDesc (MenuParserV2.linkCandidates (env.pageLinks html)
    env.urljoin base_url)).head?.map (fun c => c.2)

/-- `MenuParserV2._process_menu_text`: wrap extracted menu text in a success
result and, when a dish name is given, run the real dish search and price
extraction on it. -/
def MenuParserV2.process_menu_text (text menu_url dish_name : PyStr)
    (source : MenuSource) : MenuParseResultM :=
  if dish_name = [] then
    { success := true, menu_url := some menu_url, menu_text := some text,
      source := some source }
  else
    match find_dish_in_text dish_name text with
    | some position =>
      let pr := extract_price text position 150
      { success := true, menu_url := some menu_url, menu_text := some text,
        source := some source, dish_found := true,
        dish_position := some position, price := pr.1, price_raw := pr.2 }
    | none =>
      { success := true, menu_url := some menu_url, menu_text := some text,
        source := some source }

/-- `MenuParserV2._parse_pdf_menu`: extract PDF text (failure or a too-short
result is an explicit failure), classify OCR provenance, process. -/
def MenuParserV2.parse_pdf_menu (env : ParseEnv) (pdf_url dish_name : PyStr) :
    MenuParseResultM :=
  match env.pdfExtract pdf_url with
  | none =>
    { success := false, menu_url := some pdf_url,
      error := some (pyStr "PDF text extraction failed") }
  | some text =>
    if text.length < MIN_CONTENT_LENGTH then
      { success := false, menu_url := some pdf_url,
        error := some (pyStr "PDF text extraction failed") }
    else
      MenuParserV2.process_menu_text text pdf_url dish_name
        (if hasOcrArtifacts text then .pdf_ocr else .pdf_text)

/-- The loop of `_try_pdf_menu` over the first PDF links: first success wins,
otherwise a bare failure (never returned to callers, only tested). -/
def MenuParserV2.tryPdfList (env : ParseEnv) (dish_name : PyStr) :
    List PyStr → MenuParseResultM
  | [] => { success := false }
  | u :: rest =>
    let r := MenuParserV2.parse_pdf_menu env u dish_name
    if r.success then r else MenuParserV2.tryPdfList env dish_name rest

/-- `MenuParserV2._try_pdf_menu`: find PDF links in the page and try the
first three. -/
def MenuParserV2.try_pdf_menu (env : ParseEnv) (html base_url dish_name : PyStr) :
    MenuParseResultM :=
  let pdf_links := env.findPdfLinks html base_url
  if pdf_links = [] then { success := false }
  else MenuParserV2.tryPdfList env dish_name (pdf_links.take 3)

/-- `MenuParserV2._try_browser_fallback`: render the page; on render failure
return an explicit failure; on thin content follow the top rendered menu
link once, otherwise report insufficient content. -/
def MenuParserV2.try_browser_fallback (env : ParseEnv) (url dish_name : PyStr) :
    MenuParseResultM :=
  let result := env.renderPage url
  if result.success = false then
    { success := false, menu_url := some url,
      error := some (pyStr "Browser rendering failed: " ++
        (match result.error with
         | some e => e
         | none => pyStr "None")) }
  else
    let text := result.text
    if text.length < MIN_CONTENT_LENGTH then
      let insufficient : MenuParseResultM :=
        { success := false, menu_url := some url, menu_text := some text,
          source := some .browser_render,
          error := some (pyStr "Insufficient content after browser render") }
      match (env.browserMenuLinks result.html url).head? with
      | some menu_url2 =>
        let mr := env.renderPage menu_url2
        if mr.success && decide (MIN_CONTENT_LENGTH ≤ mr.text.length) then
          MenuParserV2.process_menu_text mr.text menu_url2 dish_name
            .browser_render
        else insufficient
      | none => insufficient
    else
      MenuParserV2.process_menu_text text result.url dish_name .browser_render

/-- Step 5 of `_parse_menu_internal`: follow the best-scored menu link
(a PDF link is parsed and returned unconditionally); `none` means fall
through to the common-path scan. -/
def MenuParserV2.step5 (env : ParseEnv) (html website_url dish_name : PyStr) :
    Option MenuParseResultM :=
  match MenuParserV2.find_menu_url env html website_url with
  | none => none
  | some menu_url =>
    if menu_url = [] ∨ menu_url = website_url then none
    else if PdfParser.is_pdf_url menu_url then
      some (MenuParserV2.parse_pdf_menu env menu_url dish_name)
    else
      match env.httpGet menu_url with
      | none => none
      | some menu_html =>
        let pdf_result := MenuParserV2.try_pdf_menu env menu_html menu_url
          dish_name
        if pdf_result.success then some pdf_result
        else
          let menu_text := env.extractText menu_html
          if MIN_CONTENT_LENGTH ≤ menu_text.length then
            some (MenuParserV2.process_menu_text menu_text menu_url dish_name
              .static_html)
          else none

/-- Step 6 of `_parse_menu_internal`: scan the common menu paths, returning
the first that is a parseable PDF or passes the menu heuristic. -/
def MenuParserV2.step6 (env : ParseEnv) (website_url dish_name : PyStr) :
    List PyStr → Option MenuParseResultM
  | [] => none
  | path :: rest =>
    let test_url := env.urljoin website_url path
    if PdfParser.is_pdf_url test_url then
      let pdf_result := MenuParserV2.parse_pdf_menu env test_url dish_name
      if pdf_result.success then some pdf_result
      else MenuParserV2.step6 env website_url dish_name rest
    else
      match env.httpGet test_url with
      | none => MenuParserV2.step6 env website_url dish_name rest
      | some test_html =>
        let test_text := env.extractText test_html
        if test_text ≠ [] ∧ page_looks_like_menu test_text test_url then
          some (MenuParserV2.process_menu_text test_text test_url dish_name
            .static_html)
        else MenuParserV2.step6 env website_url dish_name rest

/-- Steps 2–7 of `_parse_menu_internal` (after the cache check): static
fetch, PDF scan, own-page heuristic, menu link, common paths, browser
fallback, explicit overall failure. -/
def MenuParserV2.steps2to7 (env : ParseEnv) (website_url dish_name : PyStr)
    (use_browser_fallback : Bool) : MenuParseResultM :=
  match env.httpGet website_url with
  | none =>
    if use_browser_fallback then
      MenuParserV2.try_browser_fallback env website_url dish_name
    else { success := false, error := some (pyStr "Failed to fetch page") }
  | some html =>
    let pdf_result := MenuParserV2.try_pdf_menu env html website_url dish_name
    if pdf_result.success then pdf_result
    else
      let main_text := env.extractText html
      if page_looks_like_menu main_text website_url then
        MenuParserV2.process_menu_text main_text website_url dish_name
          .static_html
      else
        match MenuParserV2.step5 env html website_url dish_name with
        | some r => r
        | none =>
          match MenuParserV2.step6 env website_url dish_name COMMON_MENU_PATHS with
          | some r => r
          | none =>
            if use_browser_fallback ∧ main_text.length < MIN_CONTENT_LENGTH then
              MenuParserV2.try_browser_fallback env website_url dish_name
            else
              { success := false, menu_url := some website_url,
                menu_text := some main_text,
                error := some (pyStr "Menu not found") }

/-- `MenuParserV2._parse_menu_internal`: cache hit of sufficient length is
reused, otherwise steps 2–7 run. -/
def MenuParserV2.parse_menu_internal (env : ParseEnv)
    (website_url dish_name : PyStr) (use_browser_fallback : Bool) :
    MenuParseResultM :=
  match env.cacheMenuText website_url with
  | some cached_text =>
    if cached_text ≠ [] ∧ MIN_CONTENT_LENGTH ≤ cached_text.length then
      MenuParserV2.process_menu_text cached_text website_url dish_name
        .static_html
    else MenuParserV2.steps2to7 env website_url dish_name use_browser_fallback
  | none => MenuParserV2.steps2to7 env website_url dish_name use_browser_fallback

/-- How the awaited body of `find_and_parse_menu` terminates: normally, by
exceeding the overall timeout (`asyncio.TimeoutError`), or by raising (the
message is `str(e)`). -/
inductive AsyncOutcome
  | completes
  | timesOut
  | raises (msg : PyStr)
  deriving DecidableEq, Repr

/-- `MenuParserV2.find_and_parse_menu`: normalize the URL scheme, run the
internal parse under `asyncio.wait_for`, and convert a timeout or any raised
exception into a failure result — the function itself always returns a
`MenuParseResult` and never propagates an exception. -/
def MenuParserV2.find_and_parse_menu (env : ParseEnv)
    (website_url dish_name : PyStr) (use_browser_fallback : Bool)
    (outcome : AsyncOutcome) : MenuParseResultM :=
  let url := if (pyStr "http").isPrefixOf website_url then website_url
             else pyStr "https://" ++ website_url
  match outcome with
  | .completes =>
    MenuParserV2.parse_menu_internal env url dish_name use_browser_fallback
  | .timesOut => { success := false, error := some (pyStr "Timeout") }
  | .raises msg => { success := false, error := some msg }

/-! ## C4: the parser's failure contract -/

/-- `_process_menu_text` always succeeds (dish-not-found is not a failure). -/
theorem MenuParserV2.process_menu_text_success (text menu_url dish_name : PyStr)
    (source : MenuSource) :
    (MenuParserV2.process_menu_text text menu_url dish_name source).success = true := by
  unfold MenuParserV2.process_menu_text
  split
  · rfl
  · split <;> rfl

/-- A failing `_parse_pdf_menu` carries an error message. -/
theorem MenuParserV2.parse_pdf_menu_failure_message (env : ParseEnv)
    (pdf_url dish_name : PyStr)
    (h : (MenuParserV2.parse_pdf_menu env pdf_url dish_name).success = false) :
    (MenuParserV2.parse_pdf_menu env pdf_url dish_name).error.isSome = true := by
  unfold MenuParserV2.parse_pdf_menu at h ⊢
  cases henv : env.pdfExtract pdf_url with
  | none =>
    try rw [henv]
    rfl
  | some text =>
    try rw [henv] at h
    try rw [henv]
    dsimp only at h ⊢
    by_cases hlen : text.length < MIN_CONTENT_LENGTH
    · rw [if_pos hlen]
      rfl
    · rw [if_neg hlen] at h
      rw [MenuParserV2.process_menu_text_success] at h
      exact Bool.noConfusion h

/-- A failing `_try_browser_fallback` carries an error message. -/
theorem MenuParserV2.try_browser_fallback_failure_message (env : ParseEnv)
    (url dish_name : PyStr)
    (h : (MenuParserV2.try_browser_fallback env url dish_name).success = false) :
    (MenuParserV2.try_browser_fallback env url dish_name).error.isSome = true := by
  unfold MenuParserV2.try_browser_fallback at h ⊢
  by_cases hr : (env.renderPage url).success = false
  · rw [if_pos hr]
    rfl
  · rw [if_neg hr] at h ⊢
    dsimp only at h ⊢
    by_cases hlen : (env.renderPage url).text.length < MIN_CONTENT_LENGTH
    · rw [if_pos hlen] at h ⊢
      cases hhead : (env.browserMenuLinks (env.renderPage url).html url).head? with
      | none =>
        try rw [hhead]
        rfl
      | some m2 =>
        try rw [hhead] at h
        try rw [hhead]
        dsimp only at h ⊢
        by_cases hok : ((env.renderPage m2).success &&
            decide (MIN_CONTENT_LENGTH ≤ (env.renderPage m2).text.length)) = true
        · rw [if_pos hok] at h
          rw [MenuParserV2.process_menu_text_success] at h
          exact Bool.noConfusion h
        · rw [if_neg hok]
          rfl
    · rw [if_neg hlen] at h
      rw [MenuParserV2.process_menu_text_success] at h
      exact Bool.noConfusion h

/-- A failing result returned by step 5 carries an error message. -/
theorem MenuParserV2.step5_failure_message (env : ParseEnv)
    (html website_url dish_name : PyStr) (r : MenuParseResultM)
    (h : MenuParserV2.step5 env html website_url dish_name = some r)
    (hf : r.success = false) : r.error.isSome = true := by
  unfold MenuParserV2.step5 at h
  cases hfind : MenuParserV2.find_menu_url env html website_url with
  | none =>
    try rw [hfind] at h
    cases h
  | some menu_url =>
    try rw [hfind] at h
    dsimp only at h
    by_cases h1 : menu_url = [] ∨ menu_url = website_url
    · rw [if_pos h1] at h
      cases h
    · rw [if_neg h1] at h
      by_cases h2 : PdfParser.is_pdf_url menu_url = true
      · rw [if_pos h2] at h
        injection h with h
        subst h
        exact MenuParserV2.parse_pdf_menu_failure_message env menu_url dish_name hf
      · rw [if_neg h2] at h
        cases hget : env.httpGet menu_url with
        | none =>
          try rw [hget] at h
          cases h
        | some menu_html =>
          try rw [hget] at h
          dsimp only at h
          by_cases h3 : (MenuParserV2.try_pdf_menu env menu_html menu_url
              dish_name).success = true
          · rw [if_pos h3] at h
            injection h with h
            subst h
            rw [h3] at hf
            exact Bool.noConfusion hf
          · rw [if_neg h3] at h
            by_cases h4 : MIN_CONTENT_LENGTH ≤ (env.extractText menu_html).length
            · rw [if_pos h4] at h
              injection h with h
              subst h
              rw [MenuParserV2.process_menu_text_success] at hf
              exact Bool.noConfusion hf
            · rw [if_neg h4] at h
              cases h
/-- A failing result returned by the common-path scan carries a message. -/
theorem MenuParserV2.step6_failure_message (env : ParseEnv)
    (website_url dish_name : PyStr) :
    ∀ (paths : List PyStr) (r : MenuParseResultM),
      MenuParserV2.step6 env website_url dish_name paths = some r →
      r.success = false → r.error.isSome = true := by
  intro paths
  induction paths with
  | nil =>
    intro r h _
    cases h
  | cons p rest ih =>
    intro r h hf
    unfold MenuParserV2.step6 at h
    dsimp only at h
    by_cases h1 : PdfParser.is_pdf_url (env.urljoin website_url p) = true
    · rw [if_pos h1] at h
      by_cases h2 : (MenuParserV2.parse_pdf_menu env (env.urljoin website_url p)
          dish_name).success = true
      · rw [if_pos h2] at h
        injection h with h
        subst h
        rw [h2] at hf
        exact Bool.noConfusion hf
      · rw [if_neg h2] at h
        exact ih r h hf
    · rw [if_neg h1] at h
      cases hget : env.httpGet (env.urljoin website_url p) with
      | none =>
        try rw [hget] at h
        exact ih r h hf
      | some test_html =>
        try rw [hget] at h
        dsimp only at h
        by_cases h3 : env.extractText test_html ≠ [] ∧
            page_looks_like_menu (env.extractText test_html)
              (env.urljoin website_url p) = true
        · rw [if_pos h3] at h
          injection h with h
          subst h
          rw [MenuParserV2.process_menu_text_success] at hf
          exact Bool.noConfusion hf
        · rw [if_neg h3] at h
          exact ih r h hf

/-- A failing result of steps 2–7 carries an error message. -/
theorem MenuParserV2.steps2to7_failure_message (env : ParseEnv)
    (website_url dish_name : PyStr) (ub : Bool)
    (h : (MenuParserV2.steps2to7 env website_url dish_name ub).success = false) :
    (MenuParserV2.steps2to7 env website_url dish_name ub).error.isSome = true := by
  unfold MenuParserV2.steps2to7 at h ⊢
  cases hget : env.httpGet website_url with
  | none =>
    try rw [hget] at h
    try rw [hget]
    dsimp only at h ⊢
    by_cases hub : ub = true
    · rw [if_pos hub] at h ⊢
      exact MenuParserV2.try_browser_fallback_failure_message env website_url
        dish_name h
    · rw [if_neg hub]
      rfl
  | some html =>
    try rw [hget] at h
    try rw [hget]
    dsimp only at h ⊢
    by_cases h1 : (MenuParserV2.try_pdf_menu env html website_url
        dish_name).success = true
    · rw [if_pos h1] at h
      rw [h1] at h
      exact Bool.noConfusion h
    · rw [if_neg h1] at h ⊢
      by_cases h2 : page_looks_like_menu (env.extractText html) website_url = true
      · rw [if_pos h2] at h
        rw [MenuParserV2.process_menu_text_success] at h
        exact Bool.noConfusion h
      · rw [if_neg h2] at h ⊢
        cases h5 : MenuParserV2.step5 env html website_url dish_name with
        | some r =>
          try rw [h5] at h
          try rw [h5]
          exact MenuParserV2.step5_failure_message env html website_url
            dish_name r h5 h
        | none =>
          try rw [h5] at h
          try rw [h5]
          dsimp only at h ⊢
          cases h6 : MenuParserV2.step6 env website_url dish_name
              COMMON_MENU_PATHS with
          | some r =>
            try rw [h6] at h
            try rw [h6]
            exact MenuParserV2.step6_failure_message env website_url dish_name
              COMMON_MENU_PATHS r h6 h
          | none =>
            try rw [h6] at h
            try rw [h6]
            dsimp only at h ⊢
            by_cases h7 : ub = true ∧
                (env.extractText html).length < MIN_CONTENT_LENGTH
            · rw [if_pos h7] at h ⊢
              exact MenuParserV2.try_browser_fallback_failure_message env
                website_url dish_name h
            · rw [if_neg h7]
              rfl

/-- A failing `_parse_menu_internal` carries an error message. -/
theorem MenuParserV2.parse_menu_internal_failure_message (env : ParseEnv)
    (website_url dish_name : PyStr) (ub : Bool)
    (h : (MenuParserV2.parse_menu_internal env website_url dish_name ub).success =
      false) :
    (MenuParserV2.parse_menu_internal env website_url dish_name ub).error.isSome =
      true := by
  unfold MenuParserV2.parse_menu_internal at h ⊢
  cases hc : env.cacheMenuText website_url with
  | none =>
    try rw [hc] at h
    try rw [hc]
    exact MenuParserV2.steps2to7_failure_message env website_url dish_name ub h
  | some cached =>
    try rw [hc] at h
    try rw [hc]
    dsimp only at h ⊢
    by_cases h1 : cached ≠ [] ∧ MIN_CONTENT_LENGTH ≤ cached.length
    · rw [if_pos h1] at h
      rw [MenuParserV2.process_menu_text_success] at h
      exact Bool.noConfusion h
    · rw [if_neg h1] at h ⊢
      exact MenuParserV2.steps2to7_failure_message env website_url dish_name ub h

/-- C4: `find_and_parse_menu` never propagates an exception past its
boundary (the model is a total function into `MenuParseResultM`, the
`AsyncOutcome` argument covering a raised exception or the overall timeout):
every failure result carries an explanatory message; a timeout yields the
distinct failure `error = "Timeout"`, never the dish-not-found report. -/
theorem C4_find_and_parse_menu_failure_contract (env : ParseEnv)
    (website_url dish_name : PyStr) (ub : Bool) (outcome : AsyncOutcome) :
    ((MenuParserV2.find_and_parse_menu env website_url dish_name ub
        outcome).success = false →
      (MenuParserV2.find_and_parse_menu env website_url dish_name ub
        outcome).error.isSome = true) ∧
    (MenuParserV2.find_and_parse_menu env website_url dish_name ub
      AsyncOutcome.timesOut =
      { success := false, error := some (pyStr "Timeout") }) ∧
    (∀ msg, MenuParserV2.find_and_parse_menu env website_url dish_name ub
      (AsyncOutcome.raises msg) = { success := false, error := some msg }) ∧
    some (pyStr "Timeout") ≠ some (pyStr "Menu not found") := by
  refine ⟨?_, rfl, fun msg => rfl, by decide⟩
  intro h
  cases outcome with
  | completes =>
    unfold MenuParserV2.find_and_parse_menu at h ⊢
    dsimp only at h ⊢
    exact MenuParserV2.parse_menu_internal_failure_message env _ dish_name ub h
  | timesOut => rfl
  | raises msg => rfl

/-- An environment in which every collaborator fails or is empty. -/
def envTrivial : ParseEnv :=
  { cacheMenuText := fun _ => none,
    httpGet := fun _ => none,
    extractText := fun _ => [],
    pageLinks := fun _ => [],
    urljoin := fun _ href => href,
    findPdfLinks := fun _ _ => [],
    pdfExtract := fun _ => none,
    renderPage := fun u => { url := u, success := false },
    browserMenuLinks := fun _ _ => [] }

/-- C4 witness: a concrete all-failing run still produces a message. -/
theorem C4_find_and_parse_menu_failure_contract_witness :
    (MenuParserV2.find_and_parse_menu envTrivial (pyStr "r.ru") (pyStr "суп")
      false AsyncOutcome.completes).error.isSome = true :=
  (C4_find_and_parse_menu_failure_contract envTrivial (pyStr "r.ru")
    (pyStr "суп") false AsyncOutcome.completes).1 (by decide)

/-! ## C6: the link scorer of the static menu locator -/

/-- Modelled from the spec (§4.3 step 4): the claimed link score — +10 per
menu keyword in the visible text, +5 per keyword in the URL, plus a +15
bonus when the URL contains "/menu" or "/food".  In the source this bonus
exists only in `BrowserService.find_menu_links` (the browser path), not in
the cited `MenuParserV2._find_menu_url`. -/
def specLinkScore (text href : PyStr) : Nat :=
  MenuParserV2.linkScore text href +
    (if strContains (href.map pyLower) (pyStr "/menu") ||
        strContains (href.map pyLower) (pyStr "/food") then 15 else 0)

/-- First candidate with maximal score (head of the stable descending sort). -/
def firstMaxCand : List (Nat × PyStr) → Option (Nat × PyStr)
  | [] => none
  | c :: rest =>
    match firstMaxCand rest with
    | none => some c
    | some m => if m.1 > c.1 then some m else some c

theorem insertScoreDesc_head (c : Nat × PyStr) (s : List (Nat × PyStr)) :
    (insertScoreDesc c s).head? = some (match s.head? with
      | none => c
      | some y => if y.1 > c.1 then y else c) := by
  cases s with
  | nil => rfl
  | cons y t =>
    by_cases h : y.1 > c.1 <;> simp [insertScoreDesc, h]

theorem sortScoreDesc_head :
    ∀ (l : List (Nat × PyStr)), (sortScoreDesc l).head? = firstMaxCand l
  | [] => rfl
  | c :: rest => by
    have ih := sortScoreDesc_head rest
    show (insertScoreDesc c (sortScoreDesc rest)).head? = firstMaxCand (c :: rest)
    rw [insertScoreDesc_head, ih]
    rw [show firstMaxCand (c :: rest) = (match firstMaxCand rest with
      | none => some c
      | some m => if m.1 > c.1 then some m else some c) from rfl]
    cases firstMaxCand rest with
    | none => rfl
    | some m => by_cases h : m.1 > c.1 <;> simp [h]

theorem firstMaxCand_eq_none :
    ∀ {l : List (Nat × PyStr)}, firstMaxCand l = none → l = []
  | [], _ => rfl
  | c :: rest, h => by
    unfold firstMaxCand at h
    cases hrec : firstMaxCand rest with
    | none =>
      rw [hrec] at h
      cases h
    | some m =>
      rw [hrec] at h
      dsimp only at h
      split at h <;> cases h

/-- The first maximal candidate is a candidate and dominates all scores. -/
theorem firstMaxCand_spec : ∀ {l : List (Nat × PyStr)} {m : Nat × PyStr},
    firstMaxCand l = some m → m ∈ l ∧ ∀ x ∈ l, x.1 ≤ m.1
  | [], m, h => by simp [firstMaxCand] at h
  | c :: rest, m, h => by
    unfold firstMaxCand at h
    cases hrec : firstMaxCand rest with
    | none =>
      rw [hrec] at h
      injection h with h
      subst h
      have hnil := firstMaxCand_eq_none hrec
      subst hnil
      refine ⟨List.mem_cons_self _ _, ?_⟩
      intro x hx
      rcases List.mem_cons.mp hx with h1 | h1
      · subst h1
        exact le_refl _
      · cases h1
    | some mx =>
      rw [hrec] at h
      dsimp only at h
      have hspec := firstMaxCand_spec hrec
      by_cases hcmp : mx.1 > c.1
      · rw [if_pos hcmp] at h
        injection h with h
        subst h
        refine ⟨List.mem_cons_of_mem _ hspec.1, ?_⟩
        intro x hx
        rcases List.mem_cons.mp hx with h1 | h1
        · subst h1
          omega
        · exact hspec.2 x h1
      · rw [if_neg hcmp] at h
        injection h with h
        subst h
        refine ⟨List.mem_cons_self _ _, ?_⟩
        intro x hx
        rcases List.mem_cons.mp hx with h1 | h1
        · subst h1
          exact le_refl _
        · have := hspec.2 x h1
          omega

/-- A two-link page on which the claimed and actual scorers disagree. -/
def envC6 : ParseEnv :=
  { envTrivial with
    pageLinks := fun _ =>
      [⟨pyStr "/x", pyStr "меню еда"⟩, ⟨pyStr "/menu/food", pyStr ""⟩],
    urljoin := fun _ href => href }

/-- A page whose only link is a same-page anchor. -/
def envC6anchor : ParseEnv :=
  { envTrivial with
    pageLinks := fun _ => [⟨pyStr "#menu", pyStr ""⟩],
    urljoin := fun base href => base ++ href }

/-- C6 (counterexample): `_find_menu_url` has no +15 path bonus and no
separate anchor category.  The link with href `/menu` scores 5, not 20; on a
page where the spec's scorer prefers the `/menu/food` link, the code follows
the keyword-text link `/x` instead; and a `#menu` anchor link is followed as
an ordinary candidate. -/
theorem C6_counterexample_link_scoring :
    MenuParserV2.linkScore (pyStr "") (pyStr "/menu") = 5 ∧
    specLinkScore (pyStr "") (pyStr "/menu") = 20 ∧
    MenuParserV2.linkScore (pyStr "") (pyStr "/menu/food") = 10 ∧
    specLinkScore (pyStr "") (pyStr "/menu/food") = 25 ∧
    MenuParserV2.linkScore (pyStr "меню еда") (pyStr "/x") = 20 ∧
    specLinkScore (pyStr "меню еда") (pyStr "/x") = 20 ∧
    MenuParserV2.find_menu_url envC6 (pyStr "page") (pyStr "http://r.ru") =
      some (pyStr "/x") ∧
    MenuParserV2.find_menu_url envC6anchor (pyStr "page") (pyStr "http://r.ru") =
      some (pyStr "http://r.ru#menu") := by
  refine ⟨by decide, by decide, by decide, by decide, by decide, by decide,
    by decide, by decide⟩

/-- C6 (amended): the static locator scores every non-empty,
non-`javascript:` link at +10 per menu keyword in its lowered visible text
plus +5 per keyword in its lowered URL — with no +15 path bonus and no
separate anchor-link category (those exist only in the browser-path link
finder) — and follows the single highest-scoring positive candidate
(earliest on ties); it returns none exactly when no link scores positively. -/
theorem C6_find_menu_url_amended (env : ParseEnv) (html base_url : PyStr) :
    (∀ u, MenuParserV2.find_menu_url env html base_url = some u →
      ∃ sc, (sc, u) ∈ MenuParserV2.linkCandidates (env.pageLinks html)
          env.urljoin base_url ∧
        ∀ c ∈ MenuParserV2.linkCandidates (env.pageLinks html)
          env.urljoin base_url, c.1 ≤ sc) ∧
    (MenuParserV2.find_menu_url env html base_url = none ↔
      MenuParserV2.linkCandidates (env.pageLinks html) env.urljoin base_url
        = []) := by
  constructor
  · intro u hu
    unfold MenuParserV2.find_menu_url at hu
    rw [sortScoreDesc_head] at hu
    cases hfm : firstMaxCand (MenuParserV2.linkCandidates (env.pageLinks html)
        env.urljoin base_url) with
    | none =>
      rw [hfm] at hu
      cases hu
    | some m =>
      rw [hfm] at hu
      simp only [Option.map_some', Option.some.injEq] at hu
      subst hu
      have hspec := firstMaxCand_spec hfm
      refine ⟨m.1, ?_, hspec.2⟩
      simpa using hspec.1
  · constructor
    · intro h0
      unfold MenuParserV2.find_menu_url at h0
      rw [sortScoreDesc_head] at h0
      cases hfm : firstMaxCand (MenuParserV2.linkCandidates (env.pageLinks html)
          env.urljoin base_url) with
      | none => exact firstMaxCand_eq_none hfm
      | some m =>
        rw [hfm] at h0
        cases h0
    · intro h0
      unfold MenuParserV2.find_menu_url
      rw [sortScoreDesc_head, h0]
      rfl

/-- C6 witness: on the concrete two-link page the followed URL is a
maximal-score candidate. -/
theorem C6_find_menu_url_amended_witness :
    ∃ sc, (sc, pyStr "/x") ∈ MenuParserV2.linkCandidates
        (envC6.pageLinks (pyStr "page")) envC6.urljoin (pyStr "http://r.ru") ∧
      ∀ c ∈ MenuParserV2.linkCandidates (envC6.pageLinks (pyStr "page"))
        envC6.urljoin (pyStr "http://r.ru"), c.1 ≤ sc :=
  (C6_find_menu_url_amended envC6 (pyStr "page") (pyStr "http://r.ru")).1
    (pyStr "/x") (by decide)

/-! ## Search orchestrator model (`process_location`, src/bot/handlers.py)

The progressive-radius loop is embedded over an environment providing the
place directory, the site finder and the menu parser; a ghost field `calls`
logs the place id of every parser (matcher) invocation. -/

/-- A place as used by the orchestrator (`Restaurant` id and name). -/
structure PlaceM where
  id : PyStr
  name : PyStr
  deriving DecidableEq, Repr

/-- `invalid_domains` (src/bot/handlers.py), in source order. -/
def invalid_domains : List PyStr :=
  [pyStr "t.me", pyStr "telegram.org", pyStr "vk.com", pyStr "whatsapp.com",
   pyStr "wa.me", pyStr "facebook.com", pyStr "instagram.com",
   pyStr "youtube.com"]

/-- The social-network filter of `process_location`. -/
def isInvalidDomain (website : PyStr) : Bool :=
  invalid_domains.any (fun d => strContains (website.map pyLower) d)

/-- The orchestrator's collaborators: place directory per radius, site
finder, and the menu parser keyed by website (its environment, browser flag
and timeout are fixed at the call site). -/
structure OrchEnv where
  searchRestaurants : Nat → List PlaceM
  findWebsite : PlaceM → Option PyStr
  parse : PyStr → MenuParseResultM

/-- `MenuSource.value` (the Python enum's string value). -/
def MenuSource.value : MenuSource → PyStr
  | .static_html => pyStr "static_html"
  | .browser_render => pyStr "browser_render"
  | .pdf_text => pyStr "pdf_text"
  | .pdf_ocr => pyStr "pdf_ocr"

/-- An entry of `restaurants_with_dish`. -/
structure FoundEntry where
  name : PyStr
  website : PyStr
  dish_name : PyStr
  price : Option Nat
  menu_url : PyStr
  source : PyStr
  deriving DecidableEq, Repr

/-- An entry of `restaurants_checked`. -/
structure CheckedEntry where
  name : PyStr
  website : PyStr
  menu_url : PyStr
  is_image_menu : Bool
  deriving DecidableEq, Repr

/-- The loop state of `process_location`, plus the ghost call log. -/
structure OrchState where
  checked_ids : List PyStr
  found : List FoundEntry
  checkedList : List CheckedEntry
  calls : List PyStr
  deriving DecidableEq, Repr

/-- `target_count = 3` (src/bot/handlers.py). -/
def target_count : Nat := 3

/-- Per-restaurant body of the inner loop: website lookup, social-domain
filter, matcher invocation (logged in `calls`), price fallback through the
real `extract_price`, and classification into found/checked. -/
def processBody (env : OrchEnv) (dish_name : PyStr) (st : OrchState)
    (r : PlaceM) : OrchState :=
  match env.findWebsite r with
  | none => st
  | some website =>
    if isInvalidDomain website then st
    else
      let st := { st with calls := st.calls ++ [r.id] }
      let pr := env.parse website
      let menu_url := match pr.menu_url with
        | some m => if m = [] then website else m
        | none => website
      let page_text := pr.menu_text
      let dish_position := if pr.dish_found then pr.dish_position else none
      let is_image := match page_text with
        | none => true
        | some t => t.length < 300
      match dish_position, page_text with
      | some pos, some txt =>
        if txt ≠ [] then
          let price := match pr.price with
            | some p => some p
            | none => (extract_price txt pos 150).1
          { st with found := st.found ++
              [⟨r.name, website, dish_name, price, menu_url,
                match pr.source with
                | some src => src.value
                | none => pyStr "unknown"⟩] }
        else
          { st with checkedList := st.checkedList ++
              [⟨r.name, website, menu_url, is_image⟩] }
      | _, _ =>
        { st with checkedList := st.checkedList ++
            [⟨r.name, website, menu_url, is_image⟩] }

/-- The inner loop over one radius's directory results: skip already-checked
ids, record the id, break once the target count is reached. -/
def processList (env : OrchEnv) (dish_name : PyStr) :
    OrchState → List PlaceM → OrchState
  | st, [] => st
  | st, r :: rest =>
    if st.checked_ids.contains r.id then processList env dish_name st rest
    else
      let st1 := { st with checked_ids := st.checked_ids ++ [r.id] }
      if target_count ≤ st1.found.length then st1
      else processList env dish_name (processBody env dish_name st1 r) rest

/-- The outer progressive-radius loop with its early stop. -/
def radiiLoop (env : OrchEnv) (dish_name : PyStr) :
    OrchState → List Nat → OrchState
  | st, [] => st
  | st, radius :: rest =>
    let st1 := processList env dish_name st (env.searchRestaurants radius)
    if target_count ≤ st1.found.length then st1
    else radiiLoop env dish_name st1 rest

/-- The search loop of `process_location` (src/bot/handlers.py): radii
200, 400, …, 1000, dedup by place id, stop at 3 found restaurants. -/
def process_location_search (env : OrchEnv) (dish_name : PyStr) : OrchState :=
  radiiLoop env dish_name ⟨[], [], [], []⟩ [200, 400, 600, 800, 1000]

/-- The loop invariant: the call log is duplicate-free and every called id
has been recorded as checked. -/
def OrchInv (st : OrchState) : Prop :=
  st.calls.Nodup ∧ ∀ i ∈ st.calls, i ∈ st.checked_ids

/-- `processBody` never touches `checked_ids` and appends at most the
processed place's id to the call log. -/
theorem processBody_spec (env : OrchEnv) (dish_name : PyStr) (st : OrchState)
    (r : PlaceM) :
    (processBody env dish_name st r).checked_ids = st.checked_ids ∧
    ((processBody env dish_name st r).calls = st.calls ∨
      (processBody env dish_name st r).calls = st.calls ++ [r.id]) := by
  unfold processBody
  cases env.findWebsite r with
  | none => exact ⟨rfl, Or.inl rfl⟩
  | some website =>
    dsimp only
    by_cases hinv : isInvalidDomain website = true
    · rw [if_pos hinv]
      exact ⟨rfl, Or.inl rfl⟩
    · rw [if_neg hinv]
      split
      · split
        · exact ⟨rfl, Or.inr rfl⟩
        · exact ⟨rfl, Or.inr rfl⟩
      · exact ⟨rfl, Or.inr rfl⟩

/-- The inner loop preserves the invariant and only grows `checked_ids`. -/
theorem processList_spec (env : OrchEnv) (dish_name : PyStr) :
    ∀ (places : List PlaceM) (st : OrchState), OrchInv st →
      OrchInv (processList env dish_name st places) ∧
      ∀ i ∈ st.checked_ids, i ∈ (processList env dish_name st places).checked_ids := by
  intro places
  induction places with
  | nil =>
    intro st h
    exact ⟨h, fun i hi => hi⟩
  | cons r rest ih =>
    intro st h
    unfold processList
    by_cases hc : st.checked_ids.contains r.id = true
    · rw [if_pos hc]
      exact ih st h
    · rw [if_neg hc]
      dsimp only
      have hrid : r.id ∉ st.calls := by
        intro hmem
        exact hc (List.elem_iff.mpr (h.2 r.id hmem))
      have hinv1 : OrchInv { st with checked_ids := st.checked_ids ++ [r.id] } :=
        ⟨h.1, fun i hi => by
          simp only [List.mem_append, List.mem_singleton]
          exact Or.inl (h.2 i hi)⟩
      by_cases hlen : target_count ≤ st.found.length
      · rw [if_pos hlen]
        refine ⟨hinv1, fun i hi => ?_⟩
        simp only [List.mem_append, List.mem_singleton]
        exact Or.inl hi
      · rw [if_neg hlen]
        set st1 : OrchState := { st with checked_ids := st.checked_ids ++ [r.id] }
          with hst1
        have hb := processBody_spec env dish_name st1 r
        have hinvb : OrchInv (processBody env dish_name st1 r) := by
          rcases hb.2 with hsame | happ
          · exact ⟨by rw [hsame]; exact hinv1.1,
              by rw [hsame, hb.1]; exact hinv1.2⟩
          · constructor
            · rw [happ]
              have hndp : st1.calls.Nodup := hinv1.1
              have hnm : r.id ∉ st1.calls := hrid
              simp only [List.nodup_append, List.nodup_singleton, true_and]
              exact ⟨hndp, by
                intro a ha hb2
                simp only [List.mem_singleton] at hb2
                subst hb2
                exact hnm ha⟩
            · rw [happ, hb.1]
              intro i hi
              rcases List.mem_append.mp hi with h1 | h1
              · exact hinv1.2 i h1
              · simp only [List.mem_singleton] at h1
                subst h1
                simp [hst1]
        have hmono : ∀ i ∈ st1.checked_ids,
            i ∈ (processBody env dish_name st1 r).checked_ids := by
          rw [hb.1]
          exact fun i hi => hi
        have hrec := ih (processBody env dish_name st1 r) hinvb
        refine ⟨hrec.1, fun i hi => hrec.2 i (hmono i ?_)⟩
        simp only [hst1, List.mem_append, List.mem_singleton]
        exact Or.inl hi

/-- The outer loop preserves the invariant. -/
theorem radiiLoop_inv (env : OrchEnv) (dish_name : PyStr) :
    ∀ (radii : List Nat) (st : OrchState), OrchInv st →
      OrchInv (radiiLoop env dish_name st radii) := by
  intro radii
  induction radii with
  | nil =>
    intro st h
    exact h
  | cons radius rest ih =>
    intro st h
    unfold radiiLoop
    dsimp only
    have h1 := processList_spec env dish_name (env.searchRestaurants radius) st h
    by_cases hlen : target_count ≤
        (processList env dish_name st (env.searchRestaurants radius)).found.length
    · rw [if_pos hlen]
      exact h1.1
    · rw [if_neg hlen]
      exact ih _ h1.1

/-- A directory returning the same place at radius 200 and 400. -/
def envC5 : OrchEnv :=
  { searchRestaurants := fun radius =>
      if radius = 200 ∨ radius = 400 then [⟨pyStr "p1", pyStr "Кафе"⟩] else [],
    findWebsite := fun _ => some (pyStr "http://cafe.ru"),
    parse := fun _ => { success := false, error := some (pyStr "Menu not found") } }

/-- C5: across one whole progressive-radius search the menu parser (the
per-place matcher) is invoked at most once per place identifier — the call
log is duplicate-free for every environment — and in the concrete scenario
where the directory returns the same place at radius 200 and at radius 400
it is invoked exactly once, because the loop filters against the
already-processed id set. -/
theorem C5_dedup_matcher_calls (env : OrchEnv) (dish_name : PyStr) :
    (process_location_search env dish_name).calls.Nodup ∧
    (process_location_search envC5 (pyStr "суп")).calls = [pyStr "p1"] := by
  constructor
  · exact (radiiLoop_inv env dish_name [200, 400, 600, 800, 1000]
      ⟨[], [], [], []⟩ ⟨List.nodup_nil, by simp⟩).1
  · decide
